import Mathlib

/-!
# The command executor of the shell (`src/cmd.c`)

A shallow embedding of `shell_cd`, `shell_exit`, `parse_simple`,
`run_in_parallel`, `run_on_pipe` and `parse_command`, followed by the
properties established about them.

## Modelling conventions

* A process is a `Proc` (working directory, environment table, descriptor
  table).  What all processes share is a `Sys` (the host's file system and
  programs, as an abstract state `σ` driven by the functions of a `Host`; the
  outcomes the kernel gives to the coming `fork` and `pipe` calls; the
  counters for process and pipe identities; the evaluation trace).
* A C function that may terminate the process returns an `Outcome`:
  `ret v w` (returned `v` to its caller in world `w`), `exit code k` (called
  `exit(code)`), `crash k` (dereferenced a NULL pointer).
* `fork` is modelled by running the child on a copy of the parent's `Proc`
  over the shared `Sys`; the parent keeps its own `Proc`.  Of all the
  interleavings of a parent and its children the model runs one: the parent
  runs until it waits, then its children run to completion in the order of
  their creation.
* `level` and `father` are threaded through the C code but never read.  The
  model threads in their place the position `pos` of the node in the tree
  (the path from the root, `false` = `cmd1`, `true` = `cmd2`), which stands
  for the identity of the node, and `parse_command` appends `pos` to
  `Sys.trace` on entry.  The trace is a ghost field: nothing reads it.
* Memory management (`malloc`, `strdup`, `free`) is not modelled.
-/

namespace Shell

/-! ## Data model (`parser.h`, as used by `cmd.c`) -/

/-- The operator tag `c->op`.  `OP_DUMMY` stands for every tag that
`parse_command` does not name (its `default:` case). -/
inductive operator_t
  | OP_NONE
  | OP_SEQUENTIAL
  | OP_PARALLEL
  | OP_CONDITIONAL_NZERO
  | OP_CONDITIONAL_ZERO
  | OP_PIPE
  | OP_DUMMY
  deriving DecidableEq

/-- One cell of a word: `string` and the `expand` flag. -/
structure word_part where
  string : String
  expand : Bool
  deriving DecidableEq

/-- A `word_t *`: the chain of cells linked by `next_part`.  `[]` is the NULL
pointer. -/
abbrev word_t := List word_part

/-- A `simple_command_t`.  `params` is the chain linked by `next_word` (`[]`
is NULL); `in_`, `out`, `err` are the redirection words (`[]` is NULL);
`io_flags` is the `int` compared with `0`, `1` and `2` by `parse_simple`. -/
structure simple_command_t where
  verb : word_t
  params : List word_t
  in_ : word_t
  out : word_t
  err : word_t
  io_flags : Int
  deriving DecidableEq

/-- A `command_t *`: either NULL or a node with its operator, its simple
command (`c->scmd`, `none` is NULL) and its two children. -/
inductive command_t
  | NULL
  | node (op : operator_t) (scmd : Option simple_command_t) (cmd1 cmd2 : command_t)
  deriving DecidableEq

/-- The test `if (c)` on a `command_t *`. -/
def command_t.is_null : command_t → Bool
  | .NULL => true
  | .node _ _ _ _ => false

/-! ## Processes and the host -/

/-- The three flag combinations `cmd.c` passes to `open`: `O_RDONLY`,
`O_WRONLY | O_CREAT | O_TRUNC` and `O_WRONLY | O_CREAT | O_APPEND`. -/
inductive open_mode
  | O_RDONLY
  | O_TRUNC
  | O_APPEND
  deriving DecidableEq

/-- What a descriptor refers to. -/
inductive OpenFile
  | inherited (n : Nat)
  | file (path : String) (mode : open_mode)
  | pipe_read (id : Nat)
  | pipe_write (id : Nat)
  deriving DecidableEq

/-- The state private to one process. -/
structure Proc where
  cwd : String
  env : List (String × String)
  fds : List (Int × OpenFile)
  deriving DecidableEq

/-- The state shared by all processes.  `fork_ok` and `pipe_ok` give the
outcome of the coming `fork` and `pipe` calls, in the order of the calls
(`true` or exhausted: the call succeeds). -/
structure Sys (σ : Type) where
  host : σ
  fork_ok : List Bool
  pipe_ok : List Bool
  next_pid : Nat
  next_pipe : Nat
  trace : List (List Bool)
  deriving DecidableEq

/-- A process together with the system it runs on. -/
structure World (σ : Type) where
  proc : Proc
  sys : Sys σ
  deriving DecidableEq

/-- What `cmd.c` uses without defining it: the constant `SHELL_EXIT`
(`cmd.h`), the helpers `get_word` and `get_argv` (`utils.h`), and the host
behind the system calls `chdir`, `open`, `write` and `execvp`.
`execvp args p host` is `none` when the program cannot be run (the call
returns), else the raw wait status the process ends with and the host state
it leaves. -/
structure Host (σ : Type) where
  SHELL_EXIT : Int
  get_word : List (String × String) → word_t → String
  get_argv : List (String × String) → simple_command_t → List String
  chdir : σ → String → String → Option String
  open_file : σ → String → String → open_mode → Option σ
  write : σ → Option OpenFile → String → σ
  execvp : List String → Proc → σ → Option (Int × σ)

/-- The result of running C code that may terminate the process. -/
inductive Outcome (σ : Type) (α : Type)
  | ret (v : α) (w : World σ)
  | exit (code : Int) (k : Sys σ)
  | crash (k : Sys σ)
  deriving DecidableEq

/-- Sequencing: continue with `f` when the first part returned. -/
def Outcome.bind {σ α β : Type} (o : Outcome σ α) (f : α → World σ → Outcome σ β) :
    Outcome σ β :=
  match o with
  | .ret v w => f v w
  | .exit code k => .exit code k
  | .crash k => .crash k

/-- The shared state an outcome leaves. -/
def Outcome.sys {σ α : Type} : Outcome σ α → Sys σ
  | .ret _ w => w.sys
  | .exit _ k => k
  | .crash k => k

/-- The raw wait status of a process that ends by `exit(code)`. -/
def exit_status (code : Int) : Int := (code % 256) * 256

/-- The raw wait status of a process killed by `SIGSEGV`. -/
def segv_status : Int := 11

/-- The raw wait status of a child whose code is `exit(f(...))`. -/
def Outcome.wstatus {σ : Type} : Outcome σ Int → Int
  | .ret v _ => exit_status v
  | .exit code _ => exit_status code
  | .crash _ => segv_status

/-- `WIFEXITED(status)`: `(status & 0x7f) == 0`. -/
def WIFEXITED (status : Int) : Bool := status % 128 == 0

/-- `WEXITSTATUS(status)`: `(status & 0xff00) >> 8`. -/
def WEXITSTATUS (status : Int) : Int := (status / 256) % 256

/-- The fragment `if (WIFEXITED(status)) status = WEXITSTATUS(status);
else status = 1;`. -/
def translate_status (status : Int) : Int :=
  if WIFEXITED status then WEXITSTATUS status else 1

/-! ## System calls -/

/-- The entry of a descriptor table for `fd`. -/
def fd_lookup (fds : List (Int × OpenFile)) (fd : Int) : Option OpenFile :=
  (fds.find? (fun e => e.1 == fd)).map (fun e => e.2)

/-- The table without `fd`. -/
def fd_erase (fds : List (Int × OpenFile)) (fd : Int) : List (Int × OpenFile) :=
  fds.filter (fun e => e.1 != fd)

/-- The lowest descriptor that is not open. -/
def lowest_free (fds : List (Int × OpenFile)) : Int :=
  Int.ofNat (((List.range (fds.length + 1)).find?
    (fun n => (fd_lookup fds (Int.ofNat n)).isNone)).getD fds.length)

/-- The descriptors open in a process. -/
def open_fds (p : Proc) : List Int :=
  p.fds.map (fun e => e.1)

/-- The call `open(path, flags, 0644)`: `-1` when the host refuses, else the
lowest free descriptor, now referring to the file. -/
def sys_open {σ : Type} (H : Host σ) (w : World σ) (path : String) (mode : open_mode) :
    Int × World σ :=
  match H.open_file w.sys.host w.proc.cwd path mode with
  | none => (-1, w)
  | some host1 =>
    let fd := lowest_free w.proc.fds
    (fd, { proc := { w.proc with fds := (fd, OpenFile.file path mode) :: w.proc.fds },
           sys := { w.sys with host := host1 } })

/-- The call `dup2(oldfd, newfd)`: nothing when `oldfd` is not open. -/
def sys_dup2 (p : Proc) (oldfd newfd : Int) : Proc :=
  match fd_lookup p.fds oldfd with
  | none => p
  | some f =>
    if oldfd = newfd then p
    else { p with fds := (newfd, f) :: fd_erase p.fds newfd }

/-- The call `close(fd)`. -/
def sys_close (p : Proc) (fd : Int) : Proc :=
  { p with fds := fd_erase p.fds fd }

/-- The call `fork()` as the parent sees it: `-1`, or the identity of the new
child. -/
def sys_fork {σ : Type} (k : Sys σ) : Int × Sys σ :=
  match k.fork_ok with
  | false :: rest => (-1, { k with fork_ok := rest })
  | true :: rest => ((k.next_pid : Int) + 1, { k with fork_ok := rest, next_pid := k.next_pid + 1 })
  | [] => ((k.next_pid : Int) + 1, { k with next_pid := k.next_pid + 1 })

/-- The call `pipe(fds)`: the return code, `fds[0]`, `fds[1]` and the world. -/
def sys_pipe {σ : Type} (w : World σ) : Int × Int × Int × World σ :=
  match w.sys.pipe_ok with
  | false :: rest => (-1, 0, 0, { w with sys := { w.sys with pipe_ok := rest } })
  | ok =>
    let id := w.sys.next_pipe
    let rd := lowest_free w.proc.fds
    let fds1 := (rd, OpenFile.pipe_read id) :: w.proc.fds
    let wr := lowest_free fds1
    (0, rd, wr,
      { proc := { w.proc with fds := (wr, OpenFile.pipe_write id) :: fds1 },
        sys := { w.sys with pipe_ok := ok.tail, next_pipe := id + 1 } })

/-- The call `waitpid(pid, &status, 0)` on the terminated children `kids` of
the caller: the new value of `status` and the children left.  With `pid = -1`
any child is reaped; a `pid` that is no child of the caller leaves `status`
as it was (`ECHILD`). -/
def sys_waitpid (kids : List (Int × Int)) (pid : Int) (status : Int) :
    Int × List (Int × Int) :=
  if pid = -1 then
    match kids with
    | [] => (status, [])
    | (_, ws) :: rest => (ws, rest)
  else
    match kids.find? (fun e => e.1 == pid) with
    | none => (status, kids)
    | some e => (e.2, kids.filter (fun e => e.1 != pid))

/-- A spawned child: nothing when `fork` failed, else the child's code runs on
a copy `p` of the parent's process state and leaves a terminated child. -/
def run_child {σ : Type} (pid : Int) (code : World σ → Outcome σ Int) (p : Proc) (k : Sys σ) :
    List (Int × Int) × Sys σ :=
  if pid < 0 then ([], k)
  else
    let o := code { proc := p, sys := k }
    ([(pid, o.wstatus)], o.sys)

/-- The call `setenv(name, value, 1)`: fails on an empty name and on a name
containing `=`. -/
def sys_setenv (env : List (String × String)) (name value : String) :
    Option (List (String × String)) :=
  if name = "" ∨ '=' ∈ name.data then none
  else some ((name, value) :: env.filter (fun e => e.1 != name))

/-- Writing `msg` to descriptor `fd`. -/
def sys_write {σ : Type} (H : Host σ) (p : Proc) (k : Sys σ) (fd : Int) (msg : String) : Sys σ :=
  { k with host := H.write k.host (fd_lookup p.fds fd) msg }

/-- The ghost step on entry of `parse_command`: record the node. -/
def World.enter {σ : Type} (w : World σ) (pos : List Bool) : World σ :=
  { w with sys := { w.sys with trace := w.sys.trace ++ [pos] } }

/-! ## The functions of `cmd.c` -/

section Code

variable {σ : Type} (H : Host σ)

/-- The field `string` of the first cell of a non-NULL word. -/
def word_string (w : word_t) : String :=
  match w with
  | [] => ""
  | p :: _ => p.string

/-- `shell_cd`: with exactly one word in `dir` the directory is changed with
`chdir`, otherwise `false` is returned before any call. -/
def shell_cd (dir : List word_t) (w : World σ) : Bool × World σ :=
  match dir with
  | [d] =>
    let path := H.get_word w.proc.env d
    match H.chdir w.sys.host w.proc.cwd path with
    | none => (false, w)
    | some cwd1 => (true, { w with proc := { w.proc with cwd := cwd1 } })
  | _ => (false, w)

/-- `shell_exit`: `exit(EXIT_SUCCESS)`. -/
def shell_exit (w : World σ) : Outcome σ Int :=
  .exit 0 w.sys

/-- The pattern `fd = open(get_word(word), flags, 0644); dup2(fd, t)` for each
`t` of `targets`; `close(fd)`, which the child of `parse_simple` repeats for
each redirection. -/
def redirect (w : World σ) (word : word_t) (mode : open_mode) (targets : List Int) :
    World σ :=
  let r := sys_open H w (H.get_word w.proc.env word) mode
  let p := targets.foldl (fun p t => sys_dup2 p r.1 t) r.2.proc
  { r.2 with proc := sys_close p r.1 }

/-- The redirections the child of `parse_simple` sets up before `execvp`
(lines 100 to 160). -/
def child_redirect (s : simple_command_t) (w : World σ) : World σ :=
  let w1 := if s.in_ ≠ [] then redirect H w s.in_ .O_RDONLY [0] else w
  let same := decide (s.out ≠ [] ∧ s.err ≠ [] ∧ word_string s.out = word_string s.err ∧
    s.io_flags = 0)
  let w2 := if same then redirect H w1 s.out .O_TRUNC [1, 2] else w1
  let both : Int := if same then 0 else 1
  let w3 := if s.out ≠ [] ∧ s.io_flags = 0 ∧ both ≠ 0 then redirect H w2 s.out .O_TRUNC [1] else w2
  let w4 := if s.err ≠ [] ∧ s.io_flags = 0 ∧ both ≠ 0 then redirect H w3 s.err .O_TRUNC [2] else w3
  let w5 := if s.out ≠ [] ∧ s.io_flags = 1 then redirect H w4 s.out .O_APPEND [1] else w4
  let w6 := if s.err ≠ [] ∧ s.io_flags = 2 then redirect H w5 s.err .O_APPEND [2] else w5
  w6

/-- The child of `parse_simple` after `fork`: the redirections, then
`execvp(args[0], args)`; when that returns, the diagnostic and
`exit(EXIT_FAILURE)`.  The result is the raw wait status of the child and the
shared state it leaves. -/
def simple_child (s : simple_command_t) (args : List String) (a0 : String) (w : World σ) :
    Int × Sys σ :=
  let c := child_redirect H s w
  match H.execvp args c.proc c.sys.host with
  | some (ws, host1) => (ws, { c.sys with host := host1 })
  | none =>
    (exit_status 1, sys_write H c.proc c.sys 2 ("Execution failed for \x27" ++ a0 ++ "\x27\n"))

/-- `parse_simple`. -/
def parse_simple (s : simple_command_t) (w : World σ) : Outcome σ Int :=
  match s.verb with
  | [] => .crash w.sys
  | v :: vparts =>
    if v.string = "cd" then
      let w1 := if s.out ≠ [] ∧ s.io_flags = 0 then
          (sys_open H w (H.get_word w.proc.env s.out) .O_TRUNC).2
        else w
      let r := shell_cd H s.params w1
      if r.1 = true then .ret 0 r.2 else .ret 1 r.2
    else if v.string = "exit" ∨ v.string = "quit" then
      shell_exit w
    else
      match H.get_argv w.proc.env s with
      | [] => .crash w.sys
      | a0 :: args =>
        if '=' ∈ a0.data then
          match vparts with
          | [] => .crash w.sys
          | _ :: p =>
            match sys_setenv w.proc.env v.string (H.get_word w.proc.env p) with
            | none => .ret 1 w
            | some env1 => .ret 0 { w with proc := { w.proc with env := env1 } }
        else
          let f := sys_fork w.sys
          if f.1 < 0 then
            .exit 1 (sys_write H w.proc f.2 2 "fork")
          else
            let c := simple_child H s (a0 :: args) a0 { proc := w.proc, sys := f.2 }
            let status := (sys_waitpid [(f.1, c.1)] f.1 0).1
            .ret (translate_status status) { proc := w.proc, sys := c.2 }

/-- `run_in_parallel`; `child1` and `child2` are the calls
`parse_command(cmd1, level + 1, father)` and
`parse_command(cmd2, level + 1, father)` the two children make. -/
def run_in_parallel (child1 child2 : World σ → Outcome σ Int) (w : World σ) :
    Bool × World σ :=
  let f1 := sys_fork w.sys
  let f2 := sys_fork f1.2
  let c1 := run_child f1.1 child1 w.proc f2.2
  let c2 := run_child f2.1 child2 w.proc c1.2
  let r1 := sys_waitpid (c1.1 ++ c2.1) f1.1 0
  let r2 := sys_waitpid r1.2 f2.1 0
  let status1 := translate_status r1.1
  let status2 := translate_status r2.1
  (status1 == 0 && status2 == 0, { proc := w.proc, sys := c2.2 })

/-- `run_on_pipe`; `child1` and `child2` as in `run_in_parallel`. -/
def run_on_pipe (child1 child2 : World σ → Outcome σ Int) (w : World σ) :
    Outcome σ Bool :=
  let pr := sys_pipe w
  let rc := pr.1
  let fds0 := pr.2.1
  let fds1 := pr.2.2.1
  let w1 := pr.2.2.2
  if rc < 0 then
    .exit 1 (sys_write H w1.proc w1.sys 2 "pipe")
  else
    let f1 := sys_fork w1.sys
    let f2 := sys_fork f1.2
    let p1 := sys_close (sys_close (sys_dup2 w1.proc fds1 1) fds0) fds1
    let c1 := run_child f1.1 child1 p1 f2.2
    let p2 := sys_close (sys_close (sys_dup2 w1.proc fds0 0) fds0) fds1
    let c2 := run_child f2.1 child2 p2 c1.2
    let p := sys_close (sys_close w1.proc fds0) fds1
    let r1 := sys_waitpid (c1.1 ++ c2.1) f1.1 0
    let r2 := sys_waitpid r1.2 f2.1 0
    let _status1 := translate_status r1.1
    let status2 := translate_status r2.1
    .ret (status2 == 0) { proc := p, sys := c2.2 }

/-- `parse_command`. -/
def parse_command : command_t → List Bool → World σ → Outcome σ Int
  | .NULL, _, w => .crash w.sys
  | .node op scmd cmd1 cmd2, pos, w0 =>
    let w := w0.enter pos
    match op with
    | .OP_NONE =>
      match scmd with
      | none => .crash w.sys
      | some s => parse_simple H s w
    | .OP_SEQUENTIAL =>
      let second : World σ → Outcome σ Int := fun w1 =>
        if cmd2.is_null then .ret 0 w1
        else (parse_command cmd2 (pos ++ [true]) w1).bind fun _ w2 => .ret 0 w2
      if cmd1.is_null then second w
      else (parse_command cmd1 (pos ++ [false]) w).bind fun _ w1 => second w1
    | .OP_PARALLEL =>
      let r := run_in_parallel (parse_command cmd1 (pos ++ [false]))
        (parse_command cmd2 (pos ++ [true])) w
      if r.1 = false then .ret 1 r.2 else .ret 0 r.2
    | .OP_CONDITIONAL_NZERO =>
      let second : World σ → Outcome σ Int := fun w1 =>
        if cmd2.is_null then .ret 1 w1
        else (parse_command cmd2 (pos ++ [true]) w1).bind fun rc w2 =>
          if rc = 0 then .ret 0 w2 else .ret 1 w2
      if cmd1.is_null then second w
      else (parse_command cmd1 (pos ++ [false]) w).bind fun rc w1 =>
        if rc = 0 then .ret 0 w1 else second w1
    | .OP_CONDITIONAL_ZERO =>
      let second : World σ → Outcome σ Int := fun w1 =>
        if cmd2.is_null then .ret 0 w1
        else (parse_command cmd2 (pos ++ [true]) w1).bind fun rc w2 =>
          if rc ≠ 0 then .ret 1 w2 else .ret 0 w2
      if cmd1.is_null then second w
      else (parse_command cmd1 (pos ++ [false]) w).bind fun rc w1 =>
        if rc ≠ 0 then .ret 1 w1 else second w1
    | .OP_PIPE =>
      (run_on_pipe H (parse_command cmd1 (pos ++ [false]))
        (parse_command cmd2 (pos ++ [true])) w).bind fun e w1 =>
        if e = false then .ret 1 w1 else .ret 0 w1
    | .OP_DUMMY => .ret H.SHELL_EXIT w

end Code

/-! ## A concrete host

A small host on which the definitions are evaluated.  Its state is the list of
the lines that programs and the shell have written, whatever the descriptor.
The directories are `/`, `/tmp` and `/home`; every file can be opened except
`/forbidden`; the programs are `true` (status 0), `false` (status 1), `two`
(status 2), `pwd` (writes its working directory), `fds` (writes what its
descriptors 1 and 2 refer to) and `segv` (killed by a signal). -/

/-- The word with its variables expanded, as the shell helper builds it. -/
def demo_get_word (env : List (String × String)) (w : word_t) : String :=
  String.join (w.map fun p =>
    if p.expand then ((env.find? (fun e => e.1 == p.string)).map (fun e => e.2)).getD ""
    else p.string)

/-- How the concrete host shows a descriptor. -/
def demo_show : Option OpenFile → String
  | none => "closed"
  | some (.inherited _) => "tty"
  | some (.file path .O_RDONLY) => "<" ++ path
  | some (.file path .O_TRUNC) => ">" ++ path
  | some (.file path .O_APPEND) => ">>" ++ path
  | some (.pipe_read _) => "pipe-r"
  | some (.pipe_write _) => "pipe-w"

/-- The programs of the concrete host. -/
def demo_execvp (args : List String) (p : Proc) (host : List String) :
    Option (Int × List String) :=
  match args with
  | [] => none
  | a0 :: _ =>
    if a0 = "true" then some (0, host)
    else if a0 = "false" then some (256, host)
    else if a0 = "two" then some (512, host)
    else if a0 = "pwd" then some (0, host ++ [p.cwd])
    else if a0 = "fds" then
      some (0, host ++ [demo_show (fd_lookup p.fds 1), demo_show (fd_lookup p.fds 2)])
    else if a0 = "segv" then some (11, host)
    else none

/-- The concrete host. -/
def demo : Host (List String) where
  SHELL_EXIT := -100
  get_word := demo_get_word
  get_argv := fun env s => demo_get_word env s.verb :: s.params.map (demo_get_word env)
  chdir := fun _ _ path => if path = "/" ∨ path = "/tmp" ∨ path = "/home" then some path else none
  open_file := fun host _ path _ => if path = "/forbidden" then none else some host
  write := fun host _ msg => host ++ [msg]
  execvp := demo_execvp

/-- A process in `/` with the three standard descriptors. -/
def proc0 : Proc :=
  { cwd := "/", env := [], fds := [(0, .inherited 0), (1, .inherited 1), (2, .inherited 2)] }

/-- The initial world on the concrete host, with the given outcomes of the
coming `fork` calls. -/
def world0 (fork_ok : List Bool) : World (List String) :=
  { proc := proc0,
    sys := { host := [], fork_ok := fork_ok, pipe_ok := [], next_pid := 100, next_pipe := 0,
             trace := [] } }

/-- A word of one cell, not expanded. -/
def lit (s : String) : word_t := [{ string := s, expand := false }]

/-- The simple command `verb params` without redirection. -/
def cmd (verb : String) (params : List String) : simple_command_t :=
  { verb := lit verb, params := params.map lit, in_ := [], out := [], err := [], io_flags := 0 }

/-- The leaf node of a simple command. -/
def leaf (s : simple_command_t) : command_t :=
  .node .OP_NONE (some s) .NULL .NULL

/-- The node `l op r`. -/
def bin (op : operator_t) (l r : command_t) : command_t :=
  .node op none l r

/-! ## Notions used by the properties -/

/-- The number of times the node at `pos` has been entered by `parse_command`. -/
def visits {σ : Type} (k : Sys σ) (pos : List Bool) : Nat := k.trace.count pos

/-- The node at `e` lies in the subtree rooted at `pos`. -/
def under (pos e : List Bool) : Prop := ∃ t, pos ++ t = e

/-- The coming `n` calls of `fork` succeed. -/
def forks_ok {σ : Type} (n : Nat) (k : Sys σ) : Prop := ∀ b ∈ k.fork_ok.take n, b = true

instance {σ : Type} (n : Nat) (k : Sys σ) : Decidable (forks_ok n k) :=
  inferInstanceAs (Decidable (∀ b ∈ k.fork_ok.take n, b = true))

/-- The coming call of `pipe` succeeds. -/
def pipe_ok {σ : Type} (k : Sys σ) : Prop := k.pipe_ok.head? ≠ some false

instance {σ : Type} (k : Sys σ) : Decidable (pipe_ok k) :=
  inferInstanceAs (Decidable (k.pipe_ok.head? ≠ some false))

/-- The status a parent collects from a child whose code is `exit(f(...))`:
the wait status of the child, translated as `run_in_parallel` and
`run_on_pipe` do. -/
def child_status {σ : Type} (o : Outcome σ Int) : Int := translate_status o.wstatus

/-- The world in which the `cd` branch of `parse_simple` calls `shell_cd`: the
one left by the `open` of lines 63 to 67 when the command has an output
redirection and `io_flags` is 0, else the world of the call. -/
def cd_opened {σ : Type} (H : Host σ) (s : simple_command_t) (w : World σ) : World σ :=
  if s.out ≠ [] ∧ s.io_flags = 0 then (sys_open H w (H.get_word w.proc.env s.out) .O_TRUNC).2
  else w

/-- The run of the first child of `run_in_parallel` and `run_on_pipe` when
both calls of `fork` succeed: on the copy `p1` of the parent's process state,
from the shared state the two calls leave. -/
def first_child {σ : Type} (child1 : World σ → Outcome σ Int) (p1 : Proc) (k : Sys σ) :
    Outcome σ Int :=
  child1 { proc := p1, sys := (sys_fork (sys_fork k).2).2 }

/-- The run of the second child: on the copy `p2` of the parent's process
state, from the shared state the first child leaves. -/
def second_child {σ : Type} (child1 child2 : World σ → Outcome σ Int) (p1 p2 : Proc)
    (k : Sys σ) : Outcome σ Int :=
  child2 { proc := p2, sys := (first_child child1 p1 k).sys }

/-- The process state of the first child of `run_on_pipe` when it calls
`parse_command`: after `dup2(fds[1], 1); close(fds[0]); close(fds[1])`. -/
def producer_proc {σ : Type} (w : World σ) : Proc :=
  sys_close (sys_close (sys_dup2 (sys_pipe w).2.2.2.proc (sys_pipe w).2.2.1 1) (sys_pipe w).2.1)
    (sys_pipe w).2.2.1

/-- The process state of the second child of `run_on_pipe` when it calls
`parse_command`: after `dup2(fds[0], 0); close(fds[0]); close(fds[1])`. -/
def consumer_proc {σ : Type} (w : World σ) : Proc :=
  sys_close (sys_close (sys_dup2 (sys_pipe w).2.2.2.proc (sys_pipe w).2.1 0) (sys_pipe w).2.1)
    (sys_pipe w).2.2.1

/-- The process state of the caller of `run_on_pipe` when it returns: after
`close(fds[0]); close(fds[1])`. -/
def pipe_parent_proc {σ : Type} (w : World σ) : Proc :=
  sys_close (sys_close (sys_pipe w).2.2.2.proc (sys_pipe w).2.1) (sys_pipe w).2.2.1

/-- The world a `cd` command leaves when `chdir` has moved the process to `d`. -/
def cd_done {σ : Type} (H : Host σ) (s : simple_command_t) (w : World σ) (d : String) :
    World σ :=
  { cd_opened H s w with proc := { (cd_opened H s w).proc with cwd := d } }

/-- The world in which the first child of a Parallel node at `pos` calls
`parse_command` when both calls of `fork` succeed: a copy of the caller's
process state, and the shared state left by the two calls. -/
def par_first_world {σ : Type} (pos : List Bool) (w : World σ) : World σ :=
  { proc := w.proc, sys := (sys_fork (sys_fork (w.enter pos).sys).2).2 }

/-- The world in which the second child of a Parallel node at `pos` with left
child `l` calls `parse_command` when both calls of `fork` succeed: a copy of
the caller's process state, and the shared state the first child leaves. -/
def par_second_world {σ : Type} (H : Host σ) (l : command_t) (pos : List Bool) (w : World σ) :
    World σ :=
  { proc := w.proc, sys := (parse_command H l (pos ++ [false]) (par_first_world pos w)).sys }

/-- The world in which the first child (the producer) of a Pipe node at `pos`
calls `parse_command` when `pipe` and both calls of `fork` succeed. -/
def pipe_first_world {σ : Type} (pos : List Bool) (w : World σ) : World σ :=
  { proc := producer_proc (w.enter pos),
    sys := (sys_fork (sys_fork (sys_pipe (w.enter pos)).2.2.2.sys).2).2 }

/-- The world in which the second child (the consumer) of a Pipe node at `pos`
with left child `l` calls `parse_command` when `pipe` and both calls of `fork`
succeed: its own process state, and the shared state the producer leaves. -/
def pipe_second_world {σ : Type} (H : Host σ) (l : command_t) (pos : List Bool) (w : World σ) :
    World σ :=
  { proc := consumer_proc (w.enter pos),
    sys := (parse_command H l (pos ++ [false]) (pipe_first_world pos w)).sys }

/-- The statuses allowed to an outcome: when it returns `b`, either
`0 ≤ b < 256` or `b` is the value `x`. -/
def status_in {σ : Type} (x : Int) (o : Outcome σ Int) : Prop :=
  ∀ b w1, o = .ret b w1 → (0 ≤ b ∧ b < 256) ∨ b = x

/-! ## Lemmas on the evaluation trace -/

section Lemmas

variable {σ : Type} (H : Host σ)

theorem under_self (pos : List Bool) : under pos pos := ⟨[], by simp⟩

theorem under_child {pos e : List Bool} (b : Bool) (h : under (pos ++ [b]) e) : under pos e := by
  obtain ⟨t, ht⟩ := h
  exact ⟨[b] ++ t, by simpa using ht⟩

theorem not_under_parent (pos : List Bool) (b : Bool) : ¬ under (pos ++ [b]) pos := by
  rintro ⟨t, ht⟩
  have := congrArg List.length ht
  simp at this

theorem not_under_sibling (pos : List Bool) (b c : Bool) (hbc : b ≠ c) :
    ¬ under (pos ++ [b]) (pos ++ [c]) := by
  rintro ⟨t, ht⟩
  rw [List.append_assoc] at ht
  have h2 := List.append_cancel_left ht
  simp at h2
  exact hbc h2.1

theorem sys_open_trace (w : World σ) (path : String) (mode : open_mode) :
    (sys_open H w path mode).2.sys.trace = w.sys.trace := by
  unfold sys_open
  split <;> rfl

theorem redirect_trace (w : World σ) (word : word_t) (mode : open_mode) (targets : List Int) :
    (redirect H w word mode targets).sys.trace = w.sys.trace := by
  simp [redirect, sys_open_trace]

theorem child_redirect_trace (s : simple_command_t) (w : World σ) :
    (child_redirect H s w).sys.trace = w.sys.trace := by
  unfold child_redirect
  simp only []
  split_ifs <;> simp [redirect_trace]

theorem sys_fork_trace (k : Sys σ) : (sys_fork k).2.trace = k.trace := by
  unfold sys_fork
  split <;> rfl

theorem sys_pipe_trace (w : World σ) : (sys_pipe w).2.2.2.sys.trace = w.sys.trace := by
  unfold sys_pipe
  split <;> rfl

theorem simple_child_trace (s : simple_command_t) (args : List String) (a0 : String)
    (w : World σ) : (simple_child H s args a0 w).2.trace = w.sys.trace := by
  unfold simple_child
  dsimp only
  cases H.execvp args (child_redirect H s w).proc (child_redirect H s w).sys.host with
  | none => simp [sys_write, child_redirect_trace]
  | some r =>
    obtain ⟨ws, h1⟩ := r
    simp [child_redirect_trace]

theorem shell_cd_trace (dir : List word_t) (w : World σ) :
    (shell_cd H dir w).2.sys.trace = w.sys.trace := by
  unfold shell_cd
  split
  · dsimp only
    split <;> rfl
  · rfl

theorem parse_simple_trace (s : simple_command_t) (w : World σ) :
    (parse_simple H s w).sys.trace = w.sys.trace := by
  unfold parse_simple
  split
  · rfl
  · rename_i v vparts hv
    by_cases h1 : v.string = "cd"
    · simp only [if_pos h1]
      split_ifs <;> simp [Outcome.sys, shell_cd_trace, sys_open_trace]
    · simp only [if_neg h1]
      by_cases h2 : v.string = "exit" ∨ v.string = "quit"
      · simp only [if_pos h2]
        rfl
      · simp only [if_neg h2]
        split
        · rfl
        · rename_i a0 args hargs
          by_cases h3 : '=' ∈ a0.data
          · simp only [if_pos h3]
            split
            · rfl
            · split <;> rfl
          · simp only [if_neg h3]
            split_ifs
            · simp [Outcome.sys, sys_write, sys_fork_trace]
            · simp [Outcome.sys, simple_child_trace, sys_fork_trace]

theorem visits_enter (w : World σ) (pos e : List Bool) :
    visits (w.enter pos).sys e = visits w.sys e + (if pos = e then 1 else 0) := by
  simp [visits, World.enter, List.count_append, List.count_singleton]

theorem visits_fork (k : Sys σ) (e : List Bool) : visits (sys_fork k).2 e = visits k e := by
  simp [visits, sys_fork_trace]

theorem visits_bind {α β : Type} (o : Outcome σ α) (f : α → World σ → Outcome σ β)
    (e : List Bool) (hf : ∀ v w, visits (f v w).sys e = visits w.sys e) :
    visits (o.bind f).sys e = visits o.sys e := by
  cases o with
  | ret v w => exact hf v w
  | exit code k => rfl
  | crash k => rfl

theorem visits_run_child (pid : Int) (code : World σ → Outcome σ Int) (p : Proc) (k : Sys σ)
    (e : List Bool) (hc : ∀ w, visits (code w).sys e = visits w.sys e) :
    visits (run_child pid code p k).2 e = visits k e := by
  unfold run_child
  split_ifs
  · rfl
  · exact hc _

theorem visits_run_in_parallel (child1 child2 : World σ → Outcome σ Int) (w : World σ)
    (e : List Bool) (h1 : ∀ w, visits (child1 w).sys e = visits w.sys e)
    (h2 : ∀ w, visits (child2 w).sys e = visits w.sys e) :
    visits (run_in_parallel child1 child2 w).2.sys e = visits w.sys e := by
  unfold run_in_parallel
  simp only [visits_run_child _ _ _ _ e h2, visits_run_child _ _ _ _ e h1, visits_fork]

theorem visits_run_on_pipe (child1 child2 : World σ → Outcome σ Int) (w : World σ)
    (e : List Bool) (h1 : ∀ w, visits (child1 w).sys e = visits w.sys e)
    (h2 : ∀ w, visits (child2 w).sys e = visits w.sys e) :
    visits (run_on_pipe H child1 child2 w).sys e = visits w.sys e := by
  have hp : visits (sys_pipe w).2.2.2.sys e = visits w.sys e := by
    simp [visits, sys_pipe_trace]
  unfold run_on_pipe
  dsimp only
  split_ifs
  · simpa [Outcome.sys, sys_write, visits] using hp
  · simp only [Outcome.sys, visits_run_child _ _ _ _ e h2, visits_run_child _ _ _ _ e h1,
      visits_fork, hp]

theorem visits_parse_simple (s : simple_command_t) (w : World σ) (e : List Bool) :
    visits (parse_simple H s w).sys e = visits w.sys e := by
  simp [visits, parse_simple_trace]

theorem visits_bind_of {α β : Type} (o : Outcome σ α) (f : α → World σ → Outcome σ β)
    (e : List Bool) (n : Nat) (ho : visits o.sys e = n)
    (hf : ∀ v w, visits w.sys e = n → visits (f v w).sys e = n) :
    visits (o.bind f).sys e = n := by
  cases o with
  | ret v w => exact hf v w ho
  | exit code k => exact ho
  | crash k => exact ho

/-- The visits of `e` across the evaluation of a node, when its children leave
them as they are: whatever the operator, they are those on entry of the node. -/
theorem visits_node (op : operator_t) (scmd : Option simple_command_t) (cmd1 cmd2 : command_t)
    (pos : List Bool) (w : World σ) (e : List Bool) (n : Nat)
    (k1 : ∀ w1, visits (parse_command H cmd1 (pos ++ [false]) w1).sys e = visits w1.sys e)
    (k2 : ∀ w1, visits (parse_command H cmd2 (pos ++ [true]) w1).sys e = visits w1.sys e)
    (hw : visits (w.enter pos).sys e = n) :
    visits (parse_command H (.node op scmd cmd1 cmd2) pos w).sys e = n := by
    have j2 : ∀ w1 n, visits w1.sys e = n →
        visits (parse_command H cmd2 (pos ++ [true]) w1).sys e = n :=
      fun w1 n h => (k2 w1).trans h
    cases op <;> simp only [parse_command] <;> subst hw <;> generalize w.enter pos = w0
    case OP_NONE =>
      cases scmd with
      | none => rfl
      | some s => exact visits_parse_simple H s _ e
    case OP_SEQUENTIAL =>
      split_ifs
      · rfl
      · exact visits_bind_of _ _ e _ (k2 w0) (fun _ _ h => h)
      · refine visits_bind_of _ _ e _ (k1 w0) (fun _ w1 h => ?_)
        exact h
      · refine visits_bind_of _ _ e _ (k1 w0) (fun _ w1 h => ?_)
        exact visits_bind_of _ _ e _ (j2 w1 _ h) (fun _ _ h => h)
    case OP_PARALLEL =>
      have := visits_run_in_parallel _ _ w0 e k1 k2
      split_ifs <;> exact this
    case OP_CONDITIONAL_NZERO =>
      split_ifs
      · rfl
      · refine visits_bind_of _ _ e _ (k2 w0) (fun _ _ h => ?_)
        split_ifs <;> exact h
      · refine visits_bind_of _ _ e _ (k1 w0) (fun _ w1 h => ?_)
        split_ifs <;> exact h
      · refine visits_bind_of _ _ e _ (k1 w0) (fun _ w1 h => ?_)
        split_ifs
        · exact h
        · refine visits_bind_of _ _ e _ (j2 w1 _ h) (fun _ _ h => ?_)
          split_ifs <;> exact h
    case OP_CONDITIONAL_ZERO =>
      split_ifs
      · rfl
      · refine visits_bind_of _ _ e _ (k2 w0) (fun _ _ h => ?_)
        split_ifs <;> exact h
      · refine visits_bind_of _ _ e _ (k1 w0) (fun _ w1 h => ?_)
        split_ifs <;> exact h
      · refine visits_bind_of _ _ e _ (k1 w0) (fun _ w1 h => ?_)
        split_ifs
        · exact h
        · refine visits_bind_of _ _ e _ (j2 w1 _ h) (fun _ _ h => ?_)
          split_ifs <;> exact h
    case OP_PIPE =>
      refine visits_bind_of _ _ e _ (visits_run_on_pipe H _ _ w0 e k1 k2) (fun _ _ h => ?_)
      split_ifs <;> exact h
    case OP_DUMMY => rfl

/-- Evaluating the subtree at `pos` enters no node outside that subtree. -/
theorem visits_outside (c : command_t) :
    ∀ (pos : List Bool) (w : World σ) (e : List Bool), ¬ under pos e →
      visits (parse_command H c pos w).sys e = visits w.sys e := by
  induction c with
  | NULL => intro pos w e _; rfl
  | node op scmd cmd1 cmd2 ih1 ih2 =>
    intro pos w e he
    have hne : pos ≠ e := fun h => he (h ▸ under_self pos)
    refine visits_node H op scmd cmd1 cmd2 pos w e _
      (fun w1 => ih1 _ w1 e (fun h => he (under_child false h)))
      (fun w1 => ih2 _ w1 e (fun h => he (under_child true h))) ?_
    rw [visits_enter, if_neg hne, Nat.add_zero]

/-- Evaluating a node enters it exactly once. -/
theorem visits_self (op : operator_t) (scmd : Option simple_command_t) (cmd1 cmd2 : command_t)
    (pos : List Bool) (w : World σ) :
    visits (parse_command H (.node op scmd cmd1 cmd2) pos w).sys pos = visits w.sys pos + 1 := by
  refine visits_node H op scmd cmd1 cmd2 pos w pos _
    (fun w1 => visits_outside H cmd1 _ w1 pos (not_under_parent pos false))
    (fun w1 => visits_outside H cmd2 _ w1 pos (not_under_parent pos true)) ?_
  rw [visits_enter, if_pos rfl]

/-- Evaluating a non-NULL subtree at `pos` enters its root exactly once. -/
theorem visits_root (c : command_t) (hc : c.is_null = false) (pos : List Bool) (w : World σ) :
    visits (parse_command H c pos w).sys pos = visits w.sys pos + 1 := by
  cases c with
  | NULL => simp [command_t.is_null] at hc
  | node op scmd cmd1 cmd2 => exact visits_self H op scmd cmd1 cmd2 pos w

end Lemmas

/-! ## The properties -/

section Claims
variable {σ : Type} (H : Host σ)

theorem visits_enter_child (w : World σ) (pos : List Bool) (b : Bool) :
    visits (w.enter pos).sys (pos ++ [b]) = visits w.sys (pos ++ [b]) := by
  have h : pos ≠ pos ++ [b] := fun h => by
    have := congrArg List.length h
    simp at this
  rw [visits_enter, if_neg h, Nat.add_zero]

/-- The visits of a child's root once the child has been evaluated from the
world entered by its parent. -/
theorem visits_after_child (c : command_t) (hc : c.is_null = false) (pos : List Bool) (b : Bool)
    (w0 : World σ) (n : Nat) (h0 : visits w0.sys (pos ++ [b]) = n) :
    visits (parse_command H c (pos ++ [b]) w0).sys (pos ++ [b]) = n + 1 := by
  rw [visits_root H c hc, h0]

/-- The visits of the other child's root are untouched by evaluating a child. -/
theorem visits_other_child (c : command_t) (pos : List Bool) (b b1 : Bool) (hb : b ≠ b1)
    (w0 : World σ) (n : Nat) (h0 : visits w0.sys (pos ++ [b1]) = n) :
    visits (parse_command H c (pos ++ [b]) w0).sys (pos ++ [b1]) = n := by
  rw [visits_outside H c _ w0 _ (not_under_sibling pos b b1 hb), h0]

/-- Claim C2: for an AndIfZero node (`OP_CONDITIONAL_ZERO`) with two non-NULL
children, evaluated at position `pos` from world `w`: if the left child
returns a nonzero status, the node returns 1 in the world the left child
left, the left child has been entered once and the right child not at all;
if the left child returns 0 and the right child then returns `b`, the node
returns 0 when `b = 0` and 1 otherwise, and each child has been entered
exactly once. -/
theorem and_if_zero_node (scmd : Option simple_command_t) (l r : command_t) (pos : List Bool)
    (w : World σ) (hl : l.is_null = false) (hr : r.is_null = false) :
    (∀ a w1, parse_command H l (pos ++ [false]) (w.enter pos) = .ret a w1 → a ≠ 0 →
        parse_command H (.node .OP_CONDITIONAL_ZERO scmd l r) pos w = .ret 1 w1 ∧
        visits w1.sys (pos ++ [false]) = visits w.sys (pos ++ [false]) + 1 ∧
        visits w1.sys (pos ++ [true]) = visits w.sys (pos ++ [true])) ∧
    (∀ w1 b w2, parse_command H l (pos ++ [false]) (w.enter pos) = .ret 0 w1 →
        parse_command H r (pos ++ [true]) w1 = .ret b w2 →
        parse_command H (.node .OP_CONDITIONAL_ZERO scmd l r) pos w
          = .ret (if b = 0 then 0 else 1) w2 ∧
        visits w2.sys (pos ++ [false]) = visits w.sys (pos ++ [false]) + 1 ∧
        visits w2.sys (pos ++ [true]) = visits w.sys (pos ++ [true]) + 1) := by
  have e1 := visits_after_child H l hl pos false (w.enter pos) _ (visits_enter_child w pos false)
  have e2 := visits_other_child H l pos false true (by decide) (w.enter pos) _
    (visits_enter_child w pos true)
  constructor
  · intro a w1 h ha
    rw [h] at e1 e2
    refine ⟨?_, e1, e2⟩
    simp [parse_command, hl, h, Outcome.bind, ha]
  · intro w1 b w2 h h2
    rw [h] at e1 e2
    have e3 := visits_other_child H r pos true false (by decide) w1 _ e1
    have e4 := visits_after_child H r hr pos true w1 _ e2
    rw [h2] at e3 e4
    refine ⟨?_, e3, e4⟩
    by_cases hb : b = 0 <;> simp [parse_command, hl, hr, h, h2, Outcome.bind, hb]

/-- Claim C2 on the concrete host: `false && two` stops after the left child
and returns 1; `true && two` evaluates both children and returns 1. -/
theorem and_if_zero_node_witness :
    (parse_command demo (bin .OP_CONDITIONAL_ZERO (leaf (cmd "false" [])) (leaf (cmd "two" [])))
        [] (world0 []) =
      .ret 1 { proc := proc0,
               sys := { host := [], fork_ok := [], pipe_ok := [], next_pid := 101, next_pipe := 0,
                        trace := [[], [false]] } }) ∧
    (parse_command demo (bin .OP_CONDITIONAL_ZERO (leaf (cmd "true" [])) (leaf (cmd "two" [])))
        [] (world0 []) =
      .ret 1 { proc := proc0,
               sys := { host := [], fork_ok := [], pipe_ok := [], next_pid := 102, next_pipe := 0,
                        trace := [[], [false], [true]] } }) :=
  ⟨((and_if_zero_node demo none (leaf (cmd "false" [])) (leaf (cmd "two" [])) [] (world0 [])
      rfl rfl).1 1 _ rfl (by decide)).1,
   ((and_if_zero_node demo none (leaf (cmd "true" [])) (leaf (cmd "two" [])) [] (world0 [])
      rfl rfl).2 _ 2 _ rfl rfl).1⟩

/-- Claim C3: for an OrIfNonzero node (`OP_CONDITIONAL_NZERO`) with two
non-NULL children, evaluated at position `pos` from world `w`: if the left
child returns 0, the node returns 0 in the world the left child left, the
left child has been entered once and the right child not at all; if the left
child returns a nonzero status and the right child then returns `b`, the node
returns 0 when `b = 0` and 1 otherwise, and each child has been entered
exactly once. -/
theorem or_if_nonzero_node (scmd : Option simple_command_t) (l r : command_t) (pos : List Bool)
    (w : World σ) (hl : l.is_null = false) (hr : r.is_null = false) :
    (∀ w1, parse_command H l (pos ++ [false]) (w.enter pos) = .ret 0 w1 →
        parse_command H (.node .OP_CONDITIONAL_NZERO scmd l r) pos w = .ret 0 w1 ∧
        visits w1.sys (pos ++ [false]) = visits w.sys (pos ++ [false]) + 1 ∧
        visits w1.sys (pos ++ [true]) = visits w.sys (pos ++ [true])) ∧
    (∀ a w1 b w2, parse_command H l (pos ++ [false]) (w.enter pos) = .ret a w1 → a ≠ 0 →
        parse_command H r (pos ++ [true]) w1 = .ret b w2 →
        parse_command H (.node .OP_CONDITIONAL_NZERO scmd l r) pos w
          = .ret (if b = 0 then 0 else 1) w2 ∧
        visits w2.sys (pos ++ [false]) = visits w.sys (pos ++ [false]) + 1 ∧
        visits w2.sys (pos ++ [true]) = visits w.sys (pos ++ [true]) + 1) := by
  have e1 := visits_after_child H l hl pos false (w.enter pos) _ (visits_enter_child w pos false)
  have e2 := visits_other_child H l pos false true (by decide) (w.enter pos) _
    (visits_enter_child w pos true)
  constructor
  · intro w1 h
    rw [h] at e1 e2
    refine ⟨?_, e1, e2⟩
    simp [parse_command, hl, h, Outcome.bind]
  · intro a w1 b w2 h ha h2
    rw [h] at e1 e2
    have e3 := visits_other_child H r pos true false (by decide) w1 _ e1
    have e4 := visits_after_child H r hr pos true w1 _ e2
    rw [h2] at e3 e4
    refine ⟨?_, e3, e4⟩
    by_cases hb : b = 0 <;> simp [parse_command, hl, hr, h, h2, Outcome.bind, hb, ha]

/-- Claim C3 on the concrete host: `true || two` stops after the left child
and returns 0; `false || two` evaluates both children and returns 1. -/
theorem or_if_nonzero_node_witness :
    (parse_command demo (bin .OP_CONDITIONAL_NZERO (leaf (cmd "true" [])) (leaf (cmd "two" [])))
        [] (world0 []) =
      .ret 0 { proc := proc0,
               sys := { host := [], fork_ok := [], pipe_ok := [], next_pid := 101, next_pipe := 0,
                        trace := [[], [false]] } }) ∧
    (parse_command demo (bin .OP_CONDITIONAL_NZERO (leaf (cmd "false" [])) (leaf (cmd "two" [])))
        [] (world0 []) =
      .ret 1 { proc := proc0,
               sys := { host := [], fork_ok := [], pipe_ok := [], next_pid := 102, next_pipe := 0,
                        trace := [[], [false], [true]] } }) :=
  ⟨((or_if_nonzero_node demo none (leaf (cmd "true" [])) (leaf (cmd "two" [])) [] (world0 [])
      rfl rfl).1 _ rfl).1,
   ((or_if_nonzero_node demo none (leaf (cmd "false" [])) (leaf (cmd "two" [])) [] (world0 [])
      rfl rfl).2 1 _ 2 _ rfl (by decide) rfl).1⟩

theorem sys_open_cwd (w : World σ) (path : String) (mode : open_mode) :
    (sys_open H w path mode).2.proc.cwd = w.proc.cwd := by
  unfold sys_open
  split <;> rfl

theorem cd_opened_cwd (s : simple_command_t) (w : World σ) :
    (cd_opened H s w).proc.cwd = w.proc.cwd := by
  unfold cd_opened
  split_ifs
  · exact sys_open_cwd H w _ _
  · rfl

/-- The `cd` branch of `parse_simple`. -/
theorem parse_simple_cd (s : simple_command_t) (w : World σ) (v : word_part) (vs : word_t)
    (hv : s.verb = v :: vs) (hcd : v.string = "cd") :
    parse_simple H s w =
      if (shell_cd H s.params (cd_opened H s w)).1 = true then
        .ret 0 (shell_cd H s.params (cd_opened H s w)).2
      else .ret 1 (shell_cd H s.params (cd_opened H s w)).2 := by
  unfold parse_simple
  simp only [hv, if_pos hcd]
  rfl

/-- Claim C7: a `cd` command whose argument list has not exactly one word
makes `parse_simple` return 1; the working directory is the one before the
call, whether or not an output redirection is present, and `shell_cd` leaves
the world it is called in untouched (no `chdir` is made). -/
theorem cd_wrong_arity (s : simple_command_t) (w : World σ) (v : word_part) (vs : word_t)
    (hv : s.verb = v :: vs) (hcd : v.string = "cd") (hn : s.params.length ≠ 1) :
    parse_simple H s w = .ret 1 (cd_opened H s w) ∧
    (cd_opened H s w).proc.cwd = w.proc.cwd ∧
    shell_cd H s.params (cd_opened H s w) = (false, cd_opened H s w) := by
  have hcdf : ∀ w1 : World σ, shell_cd H s.params w1 = (false, w1) := by
    intro w1
    unfold shell_cd
    split
    · rename_i d hd
      rw [hd] at hn
      simp at hn
    · rfl
  refine ⟨?_, cd_opened_cwd H s w, hcdf _⟩
  rw [parse_simple_cd H s w v vs hv hcd, hcdf]
  rfl

/-- Claim C7 on the concrete host: `cd` and `cd /tmp /home > o` return 1 and
stay in `/`. -/
theorem cd_wrong_arity_witness :
    (parse_simple demo (cmd "cd" []) (world0 []) = .ret 1 (world0 [])) ∧
    (parse_simple demo { cmd "cd" ["/tmp", "/home"] with out := lit "o" } (world0 []) =
      .ret 1 { world0 [] with
        proc := { proc0 with fds := (3, .file "o" .O_TRUNC) :: proc0.fds } }) :=
  ⟨(cd_wrong_arity demo (cmd "cd" []) (world0 []) _ _ rfl rfl (by decide)).1,
   (cd_wrong_arity demo { cmd "cd" ["/tmp", "/home"] with out := lit "o" } (world0 []) _ _ rfl rfl
      (by decide)).1⟩

theorem enter_proc (w : World σ) (pos : List Bool) : (w.enter pos).proc = w.proc := rfl

theorem forks_ok_enter (n : Nat) (w : World σ) (pos : List Bool) :
    forks_ok n (w.enter pos).sys ↔ forks_ok n w.sys := Iff.rfl

theorem sys_fork_ok (k : Sys σ) (h : forks_ok 1 k) :
    (sys_fork k).1 = (k.next_pid : Int) + 1 ∧ (sys_fork k).2.next_pid = k.next_pid + 1 ∧
    (sys_fork k).2.fork_ok = k.fork_ok.tail := by
  unfold sys_fork
  split
  · rename_i rest hk
    have := h false (by simp [hk])
    simp at this
  · rename_i rest hk
    simp [hk]
  · rename_i hk
    simp [hk]

theorem forks_ok_two (k : Sys σ) (h : forks_ok 2 k) :
    forks_ok 1 k ∧ forks_ok 1 (sys_fork k).2 := by
  have h1 : forks_ok 1 k := by
    intro b hb
    apply h b
    cases hk : k.fork_ok with
    | nil => simp [hk] at hb
    | cons x xs =>
      simp [hk] at hb
      simp [hb]
  refine ⟨h1, ?_⟩
  intro b hb
  rw [(sys_fork_ok k h1).2.2] at hb
  apply h b
  cases hk : k.fork_ok with
  | nil => simp [hk] at hb
  | cons x xs =>
    cases xs with
    | nil => simp [hk] at hb
    | cons y ys =>
      simp [hk] at hb
      simp [hb]

theorem sys_waitpid_first (p1 p2 a b s : Int) (h1 : p1 ≠ -1) (h12 : p2 ≠ p1) :
    sys_waitpid [(p1, a), (p2, b)] p1 s = (a, [(p2, b)]) := by
  simp [sys_waitpid, h1, h12]

theorem sys_waitpid_last (p2 b s : Int) (h2 : p2 ≠ -1) :
    sys_waitpid [(p2, b)] p2 s = (b, []) := by
  simp [sys_waitpid, h2]

/-- Two calls of `fork` that succeed return two distinct process identifiers,
neither negative. -/
theorem two_forks (k : Sys σ) (hf : forks_ok 2 k) :
    ¬ (sys_fork k).1 < 0 ∧ ¬ (sys_fork (sys_fork k).2).1 < 0 ∧ (sys_fork k).1 ≠ -1 ∧
    (sys_fork (sys_fork k).2).1 ≠ -1 ∧ (sys_fork (sys_fork k).2).1 ≠ (sys_fork k).1 := by
  obtain ⟨f1, f2⟩ := forks_ok_two k hf
  obtain ⟨a1, a2, _⟩ := sys_fork_ok k f1
  obtain ⟨b1, _, _⟩ := sys_fork_ok _ f2
  rw [a2] at b1
  rw [a1, b1]
  push_cast
  refine ⟨?_, ?_, ?_, ?_, ?_⟩ <;> omega

/-- `run_in_parallel` when both calls of `fork` succeed: the first child
starts from the shared state left by the two calls, the second from the one
the first child leaves, and the result is the test `status1 == 0 &&
status2 == 0` on the two statuses collected. -/
theorem run_in_parallel_ok (child1 child2 : World σ → Outcome σ Int) (w : World σ)
    (hf : forks_ok 2 w.sys) :
    run_in_parallel child1 child2 w =
      (decide (child_status (first_child child1 w.proc w.sys) = 0)
        && decide (child_status (second_child child1 child2 w.proc w.proc w.sys) = 0),
       { proc := w.proc, sys := (second_child child1 child2 w.proc w.proc w.sys).sys }) := by
  obtain ⟨f1, f2⟩ := forks_ok_two w.sys hf
  obtain ⟨a1, a2, _⟩ := sys_fork_ok w.sys f1
  obtain ⟨b1, _, _⟩ := sys_fork_ok _ f2
  rw [a2] at b1
  have p1 : ¬ (sys_fork w.sys).1 < 0 := by rw [a1]; omega
  have p2 : ¬ (sys_fork (sys_fork w.sys).2).1 < 0 := by rw [b1]; push_cast; omega
  have n1 : (sys_fork w.sys).1 ≠ -1 := by rw [a1]; omega
  have n2 : (sys_fork (sys_fork w.sys).2).1 ≠ -1 := by rw [b1]; push_cast; omega
  have n12 : (sys_fork (sys_fork w.sys).2).1 ≠ (sys_fork w.sys).1 := by
    rw [a1, b1]; push_cast; omega
  unfold run_in_parallel
  simp only [run_child, if_neg p1, if_neg p2, List.singleton_append,
    sys_waitpid_first _ _ _ _ _ n1 n12, sys_waitpid_last _ _ _ n2, child_status,
    first_child, second_child]
  rfl

theorem child_status_abnormal (o : Outcome σ Int) (h : WIFEXITED o.wstatus = false) :
    child_status o = 1 := by
  simp [child_status, translate_status, h]

theorem child_status_ret (v : Int) (w1 : World σ) (h0 : 0 ≤ v) (h1 : v < 256) :
    child_status (Outcome.ret v w1) = v := by
  have e : v % 256 = v := Int.emod_eq_of_lt h0 h1
  have e1 : v * 256 % 128 = 0 := by omega
  have e2 : v * 256 / 256 % 256 = v := by omega
  simp [child_status, translate_status, Outcome.wstatus, exit_status, WIFEXITED, WEXITSTATUS,
    e, e1, e2]

/-- The status a parent collects from a child, by the way the child ends: the
low byte of the value its evaluation returns or of its exit code, and 1 when
it crashes. -/
theorem child_status_cases (o : Outcome σ Int) :
    (∀ b w1, o = .ret b w1 → child_status o = b % 256) ∧
    (∀ c k, o = .exit c k → child_status o = c % 256) ∧
    (∀ k, o = .crash k → child_status o = 1) := by
  have key : ∀ x : Int, translate_status (exit_status x) = x % 256 := by
    intro x
    have e1 : x % 256 * 256 % 128 = 0 := by omega
    have e2 : x % 256 * 256 / 256 % 256 = x % 256 := by omega
    simp [translate_status, exit_status, WIFEXITED, WEXITSTATUS, e1, e2]
  refine ⟨?_, ?_, ?_⟩
  · intro b w1 h
    rw [h]
    exact key b
  · intro c k h
    rw [h]
    exact key c
  · intro k h
    rw [h]
    rfl

/-- The status of a Parallel node when both calls of `fork` succeed, by the
statuses collected from the two children. -/
theorem parallel_node_status (scmd : Option simple_command_t) (l r : command_t)
    (pos : List Bool) (w : World σ) (hf : forks_ok 2 w.sys) :
    parse_command H (.node .OP_PARALLEL scmd l r) pos w =
      .ret
        (if child_status (parse_command H l (pos ++ [false]) (par_first_world pos w)) = 0 ∧
            child_status (parse_command H r (pos ++ [true]) (par_second_world H l pos w)) = 0
          then 0 else 1)
        { proc := w.proc,
          sys := (parse_command H r (pos ++ [true]) (par_second_world H l pos w)).sys } := by
  simp only [parse_command]
  rw [run_in_parallel_ok _ _ _ ((forks_ok_enter 2 w pos).2 hf)]
  dsimp only
  show (if (decide (child_status (parse_command H l (pos ++ [false]) (par_first_world pos w))
      = 0) && decide (child_status (parse_command H r (pos ++ [true])
      (par_second_world H l pos w)) = 0)) = false then _ else _) = _
  by_cases h1 : child_status (parse_command H l (pos ++ [false]) (par_first_world pos w)) = 0 <;>
    by_cases h2 : child_status (parse_command H r (pos ++ [true])
      (par_second_world H l pos w)) = 0 <;>
    simp [h1, h2] <;> exact ⟨rfl, rfl⟩

/-- What the code does on a Parallel node (`OP_PARALLEL`) with two non-NULL
children when both calls of `fork` succeed: each child is evaluated in a
process of its own (on a copy of the caller's process state, the first child
starting after both calls of `fork`), each child is entered exactly once
whatever the other does, and the node returns, in the caller's process state,
0 when the statuses collected from both children are 0 and 1 otherwise.  The
status collected from a child that does not exit normally is 1 (a child that
crashes is such a child), and the status collected from a child whose
evaluation returns a value in `0 .. 255` is that value. -/
theorem parallel_node (scmd : Option simple_command_t) (l r : command_t) (pos : List Bool)
    (w : World σ) (hl : l.is_null = false) (hr : r.is_null = false) (hf : forks_ok 2 w.sys) :
    parse_command H (.node .OP_PARALLEL scmd l r) pos w =
      .ret
        (if child_status (parse_command H l (pos ++ [false]) (par_first_world pos w)) = 0 ∧
            child_status (parse_command H r (pos ++ [true]) (par_second_world H l pos w)) = 0
          then 0 else 1)
        { proc := w.proc,
          sys := (parse_command H r (pos ++ [true]) (par_second_world H l pos w)).sys } ∧
    visits (parse_command H r (pos ++ [true]) (par_second_world H l pos w)).sys (pos ++ [false])
      = visits w.sys (pos ++ [false]) + 1 ∧
    visits (parse_command H r (pos ++ [true]) (par_second_world H l pos w)).sys (pos ++ [true])
      = visits w.sys (pos ++ [true]) + 1 ∧
    (∀ o : Outcome σ Int, WIFEXITED o.wstatus = false → child_status o = 1) ∧
    (∀ k : Sys σ, WIFEXITED (Outcome.crash k : Outcome σ Int).wstatus = false) ∧
    (∀ (v : Int) (w1 : World σ), 0 ≤ v → v < 256 → child_status (Outcome.ret v w1) = v) := by
  refine ⟨parallel_node_status H scmd l r pos w hf, ?_, ?_, child_status_abnormal,
    fun _ => rfl, child_status_ret⟩
  · have e0 : visits (par_first_world pos w).sys (pos ++ [false])
        = visits w.sys (pos ++ [false]) := by
      show visits (sys_fork (sys_fork (w.enter pos).sys).2).2 _ = _
      rw [visits_fork, visits_fork, visits_enter_child]
    have e1 := visits_after_child H l hl pos false (par_first_world pos w) _ e0
    exact visits_other_child H r pos true false (by decide) (par_second_world H l pos w) _ e1
  · have e0 : visits (par_first_world pos w).sys (pos ++ [true])
        = visits w.sys (pos ++ [true]) := by
      show visits (sys_fork (sys_fork (w.enter pos).sys).2).2 _ = _
      rw [visits_fork, visits_fork, visits_enter_child]
    have e1 := visits_other_child H l pos false true (by decide) (par_first_world pos w) _ e0
    exact visits_after_child H r hr pos true (par_second_world H l pos w) _ e1

/-- The Parallel node on the concrete host with both calls of `fork`
succeeding: `true & false` returns 1, and so does a node whose first child is
a leaf without simple command, which crashes in its own process. -/
theorem parallel_node_examples :
    (parse_command demo (bin .OP_PARALLEL (leaf (cmd "true" [])) (leaf (cmd "false" []))) []
        (world0 [true, true]) =
      .ret 1 { proc := proc0,
               sys := { host := [], fork_ok := [], pipe_ok := [], next_pid := 104, next_pipe := 0,
                        trace := [[], [false], [true]] } }) ∧
    (parse_command demo (.node .OP_NONE none .NULL .NULL) [false] (par_first_world [] (world0 [])) =
      .crash { host := [], fork_ok := [], pipe_ok := [], next_pid := 102, next_pipe := 0,
               trace := [[], [false]] }) ∧
    (parse_command demo
        (bin .OP_PARALLEL (.node .OP_NONE none .NULL .NULL) (leaf (cmd "true" []))) []
        (world0 []) =
      .ret 1 { proc := proc0,
               sys := { host := [], fork_ok := [], pipe_ok := [], next_pid := 103, next_pipe := 0,
                        trace := [[], [false], [true]] } }) :=
  ⟨(parallel_node demo none (leaf (cmd "true" [])) (leaf (cmd "false" [])) [] (world0 [true, true])
      rfl rfl (by decide)).1,
   rfl,
   (parallel_node demo none (.node .OP_NONE none .NULL .NULL) (leaf (cmd "true" [])) []
      (world0 []) rfl rfl (by decide)).1⟩

theorem sys_pipe_ok (w : World σ) (hp : pipe_ok w.sys) :
    ¬ (sys_pipe w).1 < 0 ∧ (sys_pipe w).2.2.2.sys.fork_ok = w.sys.fork_ok := by
  unfold sys_pipe
  split
  · rename_i rest hk
    simp [pipe_ok, hk] at hp
  · simp

/-- `run_on_pipe` when `pipe` and both calls of `fork` succeed: the result is
the test `status2 == 0` on the status collected from the second child. -/
theorem run_on_pipe_ok (child1 child2 : World σ → Outcome σ Int) (w : World σ)
    (hp : pipe_ok w.sys) (hf : forks_ok 2 w.sys) :
    run_on_pipe H child1 child2 w =
      .ret (decide (child_status (second_child child1 child2 (producer_proc w) (consumer_proc w)
          (sys_pipe w).2.2.2.sys) = 0))
        { proc := pipe_parent_proc w,
          sys := (second_child child1 child2 (producer_proc w) (consumer_proc w)
            (sys_pipe w).2.2.2.sys).sys } := by
  obtain ⟨q1, q2⟩ := sys_pipe_ok w hp
  have hf1 : forks_ok 2 (sys_pipe w).2.2.2.sys := by
    unfold forks_ok
    rw [q2]
    exact hf
  obtain ⟨f1, f2⟩ := forks_ok_two _ hf1
  obtain ⟨a1, a2, _⟩ := sys_fork_ok _ f1
  obtain ⟨b1, _, _⟩ := sys_fork_ok _ f2
  rw [a2] at b1
  have p1 : ¬ (sys_fork (sys_pipe w).2.2.2.sys).1 < 0 := by rw [a1]; omega
  have p2 : ¬ (sys_fork (sys_fork (sys_pipe w).2.2.2.sys).2).1 < 0 := by
    rw [b1]; push_cast; omega
  have n1 : (sys_fork (sys_pipe w).2.2.2.sys).1 ≠ -1 := by rw [a1]; omega
  have n2 : (sys_fork (sys_fork (sys_pipe w).2.2.2.sys).2).1 ≠ -1 := by
    rw [b1]; push_cast; omega
  have n12 : (sys_fork (sys_fork (sys_pipe w).2.2.2.sys).2).1 ≠ (sys_fork (sys_pipe w).2.2.2.sys).1 := by
    rw [a1, b1]; push_cast; omega
  unfold run_on_pipe
  simp only [if_neg q1, run_child, if_neg p1, if_neg p2, List.singleton_append,
    sys_waitpid_first _ _ _ _ _ n1 n12, sys_waitpid_last _ _ _ n2, child_status,
    first_child, second_child, producer_proc, consumer_proc, pipe_parent_proc]
  rfl

theorem translate_status_range (s : Int) :
    0 ≤ translate_status s ∧ translate_status s < 256 := by
  unfold translate_status WEXITSTATUS
  split_ifs <;> omega

theorem status_in_ret (x v : Int) (w : World σ) (hv : (0 ≤ v ∧ v < 256) ∨ v = x) :
    status_in x (Outcome.ret v w) := by
  intro b w1 h
  injection h with h1 _
  rw [← h1]
  exact hv

theorem status_in_exit (x c : Int) (k : Sys σ) : status_in x (Outcome.exit c k : Outcome σ Int) := by
  intro b w1 h
  cases h

theorem status_in_crash (x : Int) (k : Sys σ) : status_in x (Outcome.crash k : Outcome σ Int) := by
  intro b w1 h
  cases h

theorem status_in_bind {α : Type} (x : Int) (o : Outcome σ α) (f : α → World σ → Outcome σ Int)
    (hf : ∀ v w, status_in x (f v w)) : status_in x (o.bind f) := by
  cases o with
  | ret v w => exact hf v w
  | exit c k => exact status_in_exit x c k
  | crash k => exact status_in_crash x k

theorem parse_simple_status (x : Int) (s : simple_command_t) (w : World σ) :
    status_in x (parse_simple H s w) := by
  unfold parse_simple
  split
  · exact status_in_crash x _
  · rename_i v vparts hv
    by_cases h1 : v.string = "cd"
    · simp only [if_pos h1]
      split_ifs
      · exact status_in_ret x 0 _ (Or.inl (by decide))
      · exact status_in_ret x 1 _ (Or.inl (by decide))
      · exact status_in_ret x 0 _ (Or.inl (by decide))
      · exact status_in_ret x 1 _ (Or.inl (by decide))
    · simp only [if_neg h1]
      by_cases h2 : v.string = "exit" ∨ v.string = "quit"
      · simp only [if_pos h2]
        exact status_in_exit x _ _
      · simp only [if_neg h2]
        split
        · exact status_in_crash x _
        · rename_i a0 args hargs
          by_cases h3 : '=' ∈ a0.data
          · simp only [if_pos h3]
            split
            · exact status_in_crash x _
            · split
              · exact status_in_ret x 1 _ (Or.inl (by decide))
              · exact status_in_ret x 0 _ (Or.inl (by decide))
          · simp only [if_neg h3]
            split_ifs
            · exact status_in_exit x _ _
            · exact status_in_ret x _ _ (Or.inl (translate_status_range _))

/-- The statuses `parse_command` returns: a value in `0 .. 255`, or
`SHELL_EXIT`. -/
theorem parse_command_status (c : command_t) (pos : List Bool) (w : World σ) :
    status_in H.SHELL_EXIT (parse_command H c pos w) := by
  have z : ∀ w1 : World σ, status_in H.SHELL_EXIT (Outcome.ret 0 w1) :=
    fun w1 => status_in_ret _ 0 w1 (Or.inl (by decide))
  have o : ∀ w1 : World σ, status_in H.SHELL_EXIT (Outcome.ret 1 w1) :=
    fun w1 => status_in_ret _ 1 w1 (Or.inl (by decide))
  cases c with
  | NULL => exact status_in_crash _ _
  | node op scmd cmd1 cmd2 =>
    cases op <;> simp only [parse_command]
    case OP_NONE =>
      cases scmd with
      | none => exact status_in_crash _ _
      | some s => exact parse_simple_status H _ s _
    case OP_SEQUENTIAL =>
      split_ifs
      · exact z _
      · exact status_in_bind _ _ _ (fun _ w2 => z w2)
      · exact status_in_bind _ _ _ (fun _ w1 => z w1)
      · exact status_in_bind _ _ _ (fun _ w1 => status_in_bind _ _ _ (fun _ w2 => z w2))
    case OP_PARALLEL =>
      split_ifs
      · exact o _
      · exact z _
    case OP_CONDITIONAL_NZERO =>
      split_ifs
      · exact o _
      · refine status_in_bind _ _ _ (fun rc w2 => ?_)
        split_ifs
        · exact z _
        · exact o _
      · refine status_in_bind _ _ _ (fun rc w1 => ?_)
        split_ifs
        · exact z _
        · exact o _
      · refine status_in_bind _ _ _ (fun rc w1 => ?_)
        split_ifs
        · exact z _
        · refine status_in_bind _ _ _ (fun rc w2 => ?_)
          split_ifs
          · exact z _
          · exact o _
    case OP_CONDITIONAL_ZERO =>
      split_ifs
      · exact z _
      · refine status_in_bind _ _ _ (fun rc w2 => ?_)
        split_ifs
        · exact o _
        · exact z _
      · refine status_in_bind _ _ _ (fun rc w1 => ?_)
        split_ifs
        · exact o _
        · exact z _
      · refine status_in_bind _ _ _ (fun rc w1 => ?_)
        split_ifs
        · exact o _
        · refine status_in_bind _ _ _ (fun rc w2 => ?_)
          split_ifs
          · exact o _
          · exact z _
    case OP_PIPE =>
      refine status_in_bind _ _ _ (fun e w1 => ?_)
      split_ifs
      · exact o _
      · exact z _
    case OP_DUMMY => exact status_in_ret _ _ _ (Or.inr rfl)

/-- Claim C5, amended: for a Pipe node (`OP_PIPE`) at `pos` whose call of
`pipe` and two calls of `fork` succeed, when the evaluation of the right
(consumer) child by the second spawned process returns the status `b`, a
value in `0 .. 255` or `SHELL_EXIT`, `parse_command` returns 0 when `b = 0`
and 1 otherwise for `b` in `0 .. 255` (for any `b`: 0 when the low byte of `b`
is 0), in the caller's process state with both pipe ends closed and the shared
state the consumer left; when that evaluation ends the child by `exit(c)` the
node returns 0 when the low byte of `c` is 0 and 1 otherwise, and when it
crashes the node returns 1.  The outcome of the node is the same for any other
left child that leaves the same shared state, whatever status that child ends
with. -/
theorem pipe_node (scmd : Option simple_command_t) (l r : command_t) (pos : List Bool)
    (w : World σ) (hp : pipe_ok w.sys) (hf : forks_ok 2 w.sys) :
    (∀ (b : Int) (w2 : World σ),
      parse_command H r (pos ++ [true]) (pipe_second_world H l pos w) = .ret b w2 →
      ((0 ≤ b ∧ b < 256) ∨ b = H.SHELL_EXIT) ∧
      (0 ≤ b → b < 256 →
        parse_command H (.node .OP_PIPE scmd l r) pos w =
          .ret (if b = 0 then 0 else 1)
            { proc := pipe_parent_proc (w.enter pos), sys := w2.sys }) ∧
      parse_command H (.node .OP_PIPE scmd l r) pos w =
        .ret (if b % 256 = 0 then 0 else 1)
          { proc := pipe_parent_proc (w.enter pos), sys := w2.sys }) ∧
    (∀ (c : Int) (k : Sys σ),
      parse_command H r (pos ++ [true]) (pipe_second_world H l pos w) = .exit c k →
      parse_command H (.node .OP_PIPE scmd l r) pos w =
        .ret (if c % 256 = 0 then 0 else 1) { proc := pipe_parent_proc (w.enter pos), sys := k }) ∧
    (∀ k : Sys σ,
      parse_command H r (pos ++ [true]) (pipe_second_world H l pos w) = .crash k →
      parse_command H (.node .OP_PIPE scmd l r) pos w =
        .ret 1 { proc := pipe_parent_proc (w.enter pos), sys := k }) ∧
    (∀ l1 : command_t,
      (parse_command H l1 (pos ++ [false]) (pipe_first_world pos w)).sys =
        (parse_command H l (pos ++ [false]) (pipe_first_world pos w)).sys →
      parse_command H (.node .OP_PIPE scmd l1 r) pos w =
        parse_command H (.node .OP_PIPE scmd l r) pos w) := by
  obtain ⟨q1, q2⟩ := sys_pipe_ok (w.enter pos) hp
  have hf1 : forks_ok 2 (sys_pipe (w.enter pos)).2.2.2.sys := by
    unfold forks_ok
    rw [q2]
    exact hf
  obtain ⟨p1, p2, n1, n2, n12⟩ := two_forks _ hf1
  have key : ∀ x : Int, translate_status (exit_status x) = x % 256 := by
    intro x
    have e1 : x % 256 * 256 % 128 = 0 := by omega
    have e2 : x % 256 * 256 / 256 % 256 = x % 256 := by omega
    simp [translate_status, exit_status, WIFEXITED, WEXITSTATUS, e1, e2]
  have main : ∀ l0 : command_t, parse_command H (.node .OP_PIPE scmd l0 r) pos w =
      .ret
        (if translate_status
            (parse_command H r (pos ++ [true]) (pipe_second_world H l0 pos w)).wstatus = 0
          then 0 else 1)
        { proc := pipe_parent_proc (w.enter pos),
          sys := (parse_command H r (pos ++ [true]) (pipe_second_world H l0 pos w)).sys } := by
    intro l0
    simp only [parse_command, run_on_pipe, if_neg q1, run_child, if_neg p1, if_neg p2,
      List.singleton_append, sys_waitpid_first _ _ _ _ _ n1 n12, sys_waitpid_last _ _ _ n2]
    show (Outcome.ret (translate_status (parse_command H r (pos ++ [true])
        (pipe_second_world H l0 pos w)).wstatus == 0)
        { proc := pipe_parent_proc (w.enter pos),
          sys := (parse_command H r (pos ++ [true]) (pipe_second_world H l0 pos w)).sys }).bind
        _ = _
    by_cases h2 : translate_status (parse_command H r (pos ++ [true])
        (pipe_second_world H l0 pos w)).wstatus = 0 <;>
      simp [h2, Outcome.bind]
  have ml := main l
  refine ⟨?_, ?_, ?_, ?_⟩
  · intro b w2 h
    rw [h] at ml
    have e : translate_status (Outcome.ret b w2 : Outcome σ Int).wstatus = b % 256 := key b
    rw [e] at ml
    refine ⟨parse_command_status H r _ _ b w2 h, ?_, ml⟩
    intro h0 h1
    rw [ml, Int.emod_eq_of_lt h0 h1]
    rfl
  · intro c k h
    rw [h] at ml
    have e : translate_status (Outcome.exit c k : Outcome σ Int).wstatus = c % 256 := key c
    rw [e] at ml
    exact ml
  · intro k h
    rw [h] at ml
    have e : translate_status (Outcome.crash k : Outcome σ Int).wstatus = 1 := rfl
    rw [e] at ml
    simpa using ml
  · intro l1 h
    have e : pipe_second_world H l1 pos w = pipe_second_world H l pos w := by
      unfold pipe_second_world
      rw [h]
    rw [main l1, ml, e]

theorem sys_open_env (w : World σ) (path : String) (mode : open_mode) :
    (sys_open H w path mode).2.proc.env = w.proc.env := by
  unfold sys_open
  split <;> rfl

theorem cd_opened_env (s : simple_command_t) (w : World σ) :
    (cd_opened H s w).proc.env = w.proc.env := by
  unfold cd_opened
  split_ifs
  · exact sys_open_env H w _ _
  · rfl

/-- The `open` of the `cd` branch reads the working directory, the
environment and the host only. -/
theorem cd_opened_congr (s : simple_command_t) (w w1 : World σ)
    (hc : w1.proc.cwd = w.proc.cwd) (he : w1.proc.env = w.proc.env)
    (hh : w1.sys.host = w.sys.host) :
    (cd_opened H s w1).sys.host = (cd_opened H s w).sys.host := by
  unfold cd_opened sys_open
  rw [hc, he, hh]
  split_ifs
  · split <;> simp [hh]
  · exact hh

/-- A `cd` with one argument for which `chdir` succeeds returns 0 in the
world `cd_done`. -/
theorem parse_simple_cd_ok (s : simple_command_t) (w : World σ) (v : word_part) (vs : word_t)
    (dir : word_t) (d : String) (hv : s.verb = v :: vs) (hcd : v.string = "cd")
    (hp : s.params = [dir])
    (hch : H.chdir (cd_opened H s w).sys.host w.proc.cwd (H.get_word w.proc.env dir) = some d) :
    parse_simple H s w = .ret 0 (cd_done H s w d) := by
  have e : shell_cd H s.params (cd_opened H s w) = (true, cd_done H s w d) := by
    have hch1 : H.chdir (cd_opened H s w).sys.host (cd_opened H s w).proc.cwd
        (H.get_word (cd_opened H s w).proc.env dir) = some d := by
      rw [cd_opened_cwd, cd_opened_env]
      exact hch
    rw [hp]
    unfold shell_cd
    simp only [hch1]
    rfl
  rw [parse_simple_cd H s w v vs hv hcd, e]
  rfl

theorem sys_close_cwd (p : Proc) (fd : Int) : (sys_close p fd).cwd = p.cwd := rfl

theorem sys_pipe_cwd (w : World σ) : (sys_pipe w).2.2.2.proc.cwd = w.proc.cwd := by
  unfold sys_pipe
  split <;> rfl

/-- A Parallel node returns in the process state of its caller. -/
theorem parallel_keeps_proc (scmd : Option simple_command_t) (l r : command_t) (pos : List Bool)
    (w : World σ) (v : Int) (w1 : World σ)
    (h : parse_command H (.node .OP_PARALLEL scmd l r) pos w = .ret v w1) :
    w1.proc = w.proc := by
  simp only [parse_command] at h
  split_ifs at h <;>
    · injection h with _ h2
      rw [← h2]
      rfl

/-- A Pipe node returns in the working directory of its caller. -/
theorem pipe_keeps_cwd (scmd : Option simple_command_t) (l r : command_t) (pos : List Bool)
    (w : World σ) (v : Int) (w1 : World σ)
    (h : parse_command H (.node .OP_PIPE scmd l r) pos w = .ret v w1) :
    w1.proc.cwd = w.proc.cwd := by
  simp only [parse_command, run_on_pipe] at h
  split_ifs at h
  · simp [Outcome.bind] at h
  · simp only [Outcome.bind] at h
    split_ifs at h <;>
      · injection h with _ h2
        rw [← h2]
        simp only [sys_close_cwd, sys_pipe_cwd]
        rfl

theorem sys_fork_host (k : Sys σ) : (sys_fork k).2.host = k.host := by
  unfold sys_fork
  split <;> rfl

/-- The `cd` command run in another world with the same working directory,
environment and host state. -/
theorem parse_simple_cd_moved (s : simple_command_t) (w : World σ) (v : word_part)
    (vs : word_t) (dir : word_t) (d : String) (hv : s.verb = v :: vs) (hcd : v.string = "cd")
    (hp : s.params = [dir])
    (hch : H.chdir (cd_opened H s w).sys.host w.proc.cwd (H.get_word w.proc.env dir) = some d)
    (w1 : World σ) (h1 : w1.proc.cwd = w.proc.cwd) (h2 : w1.proc.env = w.proc.env)
    (h3 : w1.sys.host = w.sys.host) :
    parse_simple H s w1 = .ret 0 (cd_done H s w1 d) := by
  apply parse_simple_cd_ok H s w1 v vs dir d hv hcd hp
  rw [cd_opened_congr H s w w1 h1 h2 h3, h1, h2]
  exact hch

theorem sys_dup2_cwd_env (p : Proc) (oldfd newfd : Int) :
    (sys_dup2 p oldfd newfd).cwd = p.cwd ∧ (sys_dup2 p oldfd newfd).env = p.env := by
  unfold sys_dup2
  split
  · exact ⟨rfl, rfl⟩
  · split_ifs <;> exact ⟨rfl, rfl⟩

theorem sys_pipe_env_host (w : World σ) :
    (sys_pipe w).2.2.2.proc.env = w.proc.env ∧ (sys_pipe w).2.2.2.sys.host = w.sys.host := by
  unfold sys_pipe
  split <;> exact ⟨rfl, rfl⟩

theorem producer_proc_cwd_env (w : World σ) :
    (producer_proc w).cwd = w.proc.cwd ∧ (producer_proc w).env = w.proc.env := by
  unfold producer_proc sys_close
  refine ⟨?_, ?_⟩
  · show (sys_dup2 _ _ _).cwd = _
    rw [(sys_dup2_cwd_env _ _ _).1, sys_pipe_cwd]
  · show (sys_dup2 _ _ _).env = _
    rw [(sys_dup2_cwd_env _ _ _).2, (sys_pipe_env_host w).1]

theorem consumer_proc_cwd (w : World σ) : (consumer_proc w).cwd = w.proc.cwd := by
  unfold consumer_proc sys_close
  show (sys_dup2 _ _ _).cwd = _
  rw [(sys_dup2_cwd_env _ _ _).1, sys_pipe_cwd]

theorem pipe_parent_proc_cwd (w : World σ) : (pipe_parent_proc w).cwd = w.proc.cwd := by
  unfold pipe_parent_proc sys_close
  exact sys_pipe_cwd w

/-- Claim C8, amended: a `cd` command with exactly one argument for which
`chdir` succeeds with `d` makes `parse_simple` return 0 with working
directory `d`.  When the `cd` leaf is the left child of a Sequence or
AndIfZero node, the right child is evaluated by the same process from a world
whose working directory is `d`; under an OrIfNonzero node the node returns 0
in that world.  Under a Parallel node whose two calls of `fork` succeed, and
under a Pipe node whose call of `pipe` and two calls of `fork` succeed, the
`cd` leaf is evaluated by the first spawned child, which ends with status 0
and working directory `d`; the right child is evaluated by the second spawned
child, with the working directory of the caller, from the shared state the
first child left; and when it returns `b` the node returns 0 or 1 by the low
byte of `b`, in the caller's process state (for a Pipe node with the pipe ends
closed), whose working directory is the caller's.  Whatever `fork` yields, a
Parallel or Pipe node that returns does so with the working directory the
caller had. -/
theorem cd_visible_in_same_process (s : simple_command_t) (w : World σ) (v : word_part)
    (vs : word_t) (dir : word_t) (d : String) (hv : s.verb = v :: vs) (hcd : v.string = "cd")
    (hp : s.params = [dir])
    (hch : H.chdir (cd_opened H s w).sys.host w.proc.cwd (H.get_word w.proc.env dir) = some d) :
    parse_simple H s w = .ret 0 (cd_done H s w d) ∧
    (cd_done H s w d).proc.cwd = d ∧
    (∀ (scmd : Option simple_command_t) (r : command_t) (pos : List Bool), r.is_null = false →
      parse_command H (.node .OP_SEQUENTIAL scmd (leaf s) r) pos w =
        (parse_command H r (pos ++ [true])
          (cd_done H s ((w.enter pos).enter (pos ++ [false])) d)).bind
          (fun _ w2 => .ret 0 w2) ∧
      parse_command H (.node .OP_CONDITIONAL_ZERO scmd (leaf s) r) pos w =
        (parse_command H r (pos ++ [true])
          (cd_done H s ((w.enter pos).enter (pos ++ [false])) d)).bind
          (fun rc w2 => if rc ≠ 0 then .ret 1 w2 else .ret 0 w2) ∧
      (cd_done H s ((w.enter pos).enter (pos ++ [false])) d).proc.cwd = d) ∧
    (∀ (scmd : Option simple_command_t) (r : command_t) (pos : List Bool),
      parse_command H (.node .OP_CONDITIONAL_NZERO scmd (leaf s) r) pos w =
        .ret 0 (cd_done H s ((w.enter pos).enter (pos ++ [false])) d)) ∧
    (∀ (scmd : Option simple_command_t) (r : command_t) (pos : List Bool), forks_ok 2 w.sys →
      parse_command H (leaf s) (pos ++ [false]) (par_first_world pos w) =
        .ret 0 (cd_done H s ((par_first_world pos w).enter (pos ++ [false])) d) ∧
      (cd_done H s ((par_first_world pos w).enter (pos ++ [false])) d).proc.cwd = d ∧
      par_second_world H (leaf s) pos w =
        { proc := w.proc,
          sys := (cd_done H s ((par_first_world pos w).enter (pos ++ [false])) d).sys } ∧
      (∀ (b : Int) (w2 : World σ),
        parse_command H r (pos ++ [true]) (par_second_world H (leaf s) pos w) = .ret b w2 →
        parse_command H (.node .OP_PARALLEL scmd (leaf s) r) pos w =
          .ret (if b % 256 = 0 then 0 else 1) { proc := w.proc, sys := w2.sys })) ∧
    (∀ (scmd : Option simple_command_t) (r : command_t) (pos : List Bool), pipe_ok w.sys →
      forks_ok 2 w.sys →
      parse_command H (leaf s) (pos ++ [false]) (pipe_first_world pos w) =
        .ret 0 (cd_done H s ((pipe_first_world pos w).enter (pos ++ [false])) d) ∧
      (cd_done H s ((pipe_first_world pos w).enter (pos ++ [false])) d).proc.cwd = d ∧
      pipe_second_world H (leaf s) pos w =
        { proc := consumer_proc (w.enter pos),
          sys := (cd_done H s ((pipe_first_world pos w).enter (pos ++ [false])) d).sys } ∧
      (consumer_proc (w.enter pos)).cwd = w.proc.cwd ∧
      (pipe_parent_proc (w.enter pos)).cwd = w.proc.cwd ∧
      (∀ (b : Int) (w2 : World σ),
        parse_command H r (pos ++ [true]) (pipe_second_world H (leaf s) pos w) = .ret b w2 →
        parse_command H (.node .OP_PIPE scmd (leaf s) r) pos w =
          .ret (if b % 256 = 0 then 0 else 1)
            { proc := pipe_parent_proc (w.enter pos), sys := w2.sys })) ∧
    (∀ (scmd : Option simple_command_t) (r : command_t) (pos : List Bool) (v1 : Int)
        (w1 : World σ),
      parse_command H (.node .OP_PARALLEL scmd (leaf s) r) pos w = .ret v1 w1 ∨
      parse_command H (.node .OP_PIPE scmd (leaf s) r) pos w = .ret v1 w1 →
      w1.proc.cwd = w.proc.cwd) := by
  have hleaf := parse_simple_cd_moved H s w v vs dir d hv hcd hp hch
  have hnn : (leaf s).is_null = false := rfl
  have key : ∀ x : Int, translate_status (exit_status x) = x % 256 := by
    intro x
    have e1 : x % 256 * 256 % 128 = 0 := by omega
    have e2 : x % 256 * 256 / 256 % 256 = x % 256 := by omega
    simp [translate_status, exit_status, WIFEXITED, WEXITSTATUS, e1, e2]
  have hnode : ∀ (pos : List Bool) (w1 : World σ), w1.proc.cwd = w.proc.cwd →
      w1.proc.env = w.proc.env → w1.sys.host = w.sys.host →
      parse_command H (leaf s) pos w1 = .ret 0 (cd_done H s (w1.enter pos) d) := by
    intro pos w1 h1 h2 h3
    have e := hleaf (w1.enter pos) h1 h2 h3
    simp only [parse_command, leaf]
    exact e
  refine ⟨parse_simple_cd_ok H s w v vs dir d hv hcd hp hch, rfl, ?_, ?_, ?_, ?_, ?_⟩
  · intro scmd r pos hr
    have e := hleaf ((w.enter pos).enter (pos ++ [false])) rfl rfl rfl
    refine ⟨?_, ?_, rfl⟩
    · simp [parse_command, hnn, hr, e, Outcome.bind]
    · simp [parse_command, hnn, hr, e, Outcome.bind]
  · intro scmd r pos
    have e := hleaf ((w.enter pos).enter (pos ++ [false])) rfl rfl rfl
    simp [parse_command, hnn, e, Outcome.bind]
  · intro scmd r pos hf
    have e1 := hnode (pos ++ [false]) (par_first_world pos w) rfl rfl
      (by show (sys_fork (sys_fork (w.enter pos).sys).2).2.host = _
          rw [sys_fork_host, sys_fork_host]; rfl)
    have e2 : par_second_world H (leaf s) pos w =
        { proc := w.proc,
          sys := (cd_done H s ((par_first_world pos w).enter (pos ++ [false])) d).sys } := by
      unfold par_second_world
      rw [e1]
      rfl
    refine ⟨e1, rfl, e2, ?_⟩
    intro b w2 h
    obtain ⟨p1, p2, n1, n2, n12⟩ := two_forks _ ((forks_ok_enter 2 w pos).2 hf)
    have main : ∀ l0 : command_t, parse_command H (.node .OP_PARALLEL scmd l0 r) pos w =
        .ret
          (if translate_status
                (parse_command H l0 (pos ++ [false]) (par_first_world pos w)).wstatus = 0 ∧
              translate_status
                (parse_command H r (pos ++ [true]) (par_second_world H l0 pos w)).wstatus = 0
            then 0 else 1)
          { proc := w.proc,
            sys := (parse_command H r (pos ++ [true]) (par_second_world H l0 pos w)).sys } := by
      intro l0
      simp only [parse_command, run_in_parallel, run_child, if_neg p1, if_neg p2,
        List.singleton_append, sys_waitpid_first _ _ _ _ _ n1 n12, sys_waitpid_last _ _ _ n2]
      show (if (translate_status
            (parse_command H l0 (pos ++ [false]) (par_first_world pos w)).wstatus == 0 &&
          translate_status
            (parse_command H r (pos ++ [true]) (par_second_world H l0 pos w)).wstatus == 0)
          = false then _ else _) = _
      by_cases h1 : translate_status
          (parse_command H l0 (pos ++ [false]) (par_first_world pos w)).wstatus = 0 <;>
        by_cases h2 : translate_status
          (parse_command H r (pos ++ [true]) (par_second_world H l0 pos w)).wstatus = 0 <;>
        simp [h1, h2] <;> exact ⟨rfl, rfl⟩
    rw [main (leaf s), h, e1]
    simp only [Outcome.wstatus, key, Outcome.sys]
    by_cases hb : b % 256 = 0 <;> simp [hb]
  · intro scmd r pos hpi hf
    have e1 := hnode (pos ++ [false]) (pipe_first_world pos w)
      (producer_proc_cwd_env (w.enter pos)).1 (producer_proc_cwd_env (w.enter pos)).2
      (by show (sys_fork (sys_fork (sys_pipe (w.enter pos)).2.2.2.sys).2).2.host = _
          rw [sys_fork_host, sys_fork_host, (sys_pipe_env_host (w.enter pos)).2]; rfl)
    have e2 : pipe_second_world H (leaf s) pos w =
        { proc := consumer_proc (w.enter pos),
          sys := (cd_done H s ((pipe_first_world pos w).enter (pos ++ [false])) d).sys } := by
      unfold pipe_second_world
      rw [e1]
      rfl
    refine ⟨e1, rfl, e2, consumer_proc_cwd (w.enter pos), pipe_parent_proc_cwd (w.enter pos), ?_⟩
    intro b w2 h
    obtain ⟨q1, q2⟩ := sys_pipe_ok (w.enter pos) hpi
    have hf1 : forks_ok 2 (sys_pipe (w.enter pos)).2.2.2.sys := by
      unfold forks_ok
      rw [q2]
      exact hf
    obtain ⟨p1, p2, n1, n2, n12⟩ := two_forks _ hf1
    have main : ∀ l0 : command_t, parse_command H (.node .OP_PIPE scmd l0 r) pos w =
        .ret
          (if translate_status
              (parse_command H r (pos ++ [true]) (pipe_second_world H l0 pos w)).wstatus = 0
            then 0 else 1)
          { proc := pipe_parent_proc (w.enter pos),
            sys := (parse_command H r (pos ++ [true]) (pipe_second_world H l0 pos w)).sys } := by
      intro l0
      simp only [parse_command, run_on_pipe, if_neg q1, run_child, if_neg p1, if_neg p2,
        List.singleton_append, sys_waitpid_first _ _ _ _ _ n1 n12, sys_waitpid_last _ _ _ n2]
      show (Outcome.ret (translate_status (parse_command H r (pos ++ [true])
          (pipe_second_world H l0 pos w)).wstatus == 0)
          { proc := pipe_parent_proc (w.enter pos),
            sys := (parse_command H r (pos ++ [true]) (pipe_second_world H l0 pos w)).sys }).bind
          _ = _
      by_cases h2 : translate_status (parse_command H r (pos ++ [true])
          (pipe_second_world H l0 pos w)).wstatus = 0 <;>
        simp [h2, Outcome.bind]
    rw [main (leaf s), h]
    simp only [Outcome.wstatus, key, Outcome.sys]
  · intro scmd r pos v1 w1 h
    rcases h with h | h
    · rw [parallel_keeps_proc H scmd (leaf s) r pos w v1 w1 h]
    · exact pipe_keeps_cwd H scmd (leaf s) r pos w v1 w1 h

/-- Claim C5, amended, on the concrete host: in `false | true` the consumer
returns 0 and the node returns 0; in `true | false` the consumer returns 1 and
the node returns 1. -/
theorem pipe_node_witness :
    pipe_ok (world0 []).sys ∧ forks_ok 2 (world0 []).sys ∧
    parse_command demo (bin .OP_PIPE (leaf (cmd "false" [])) (leaf (cmd "true" []))) []
        (world0 []) =
      .ret 0 { proc := proc0,
               sys := { host := [], fork_ok := [], pipe_ok := [], next_pid := 104, next_pipe := 1,
                        trace := [[], [false], [true]] } } ∧
    parse_command demo (bin .OP_PIPE (leaf (cmd "true" [])) (leaf (cmd "false" []))) []
        (world0 []) =
      .ret 1 { proc := proc0,
               sys := { host := [], fork_ok := [], pipe_ok := [], next_pid := 104, next_pipe := 1,
                        trace := [[], [false], [true]] } } :=
  ⟨by decide, by decide,
   ((pipe_node demo none (leaf (cmd "false" [])) (leaf (cmd "true" [])) [] (world0 [])
      (by decide) (by decide)).1 0 _ rfl).2.1 (by decide) (by decide),
   ((pipe_node demo none (leaf (cmd "true" [])) (leaf (cmd "false" [])) [] (world0 [])
      (by decide) (by decide)).1 1 _ rfl).2.1 (by decide) (by decide)⟩

/-- Claim C5 as stated fails: in `false | two` the right child returns 2 and
the node returns 1. -/
theorem pipe_status_not_consumer_status :
    parse_command demo (leaf (cmd "two" [])) [true]
        (pipe_second_world demo (leaf (cmd "false" [])) [] (world0 [])) =
      .ret 2 { proc := { proc0 with fds := [(0, .pipe_read 0), (1, .inherited 1), (2, .inherited 2)] },
               sys := { host := [], fork_ok := [], pipe_ok := [], next_pid := 104, next_pipe := 1,
                        trace := [[], [false], [true]] } } ∧
    parse_command demo (bin .OP_PIPE (leaf (cmd "false" [])) (leaf (cmd "two" []))) []
        (world0 []) =
      .ret 1 { proc := proc0,
               sys := { host := [], fork_ok := [], pipe_ok := [], next_pid := 104, next_pipe := 1,
                        trace := [[], [false], [true]] } } := by
  constructor <;> rfl

/-- Claim C8, amended, on the concrete host: `cd /tmp` returns 0 in `/tmp`; in
`cd /tmp ; pwd` the program `pwd` writes `/tmp`; in `cd /home & pwd` and in
`cd /home | pwd`, with all spawns succeeding, the program `pwd` writes `/` and
the node returns in `/`. -/
theorem cd_visible_in_same_process_witness :
    parse_simple demo (cmd "cd" ["/tmp"]) (world0 []) =
      .ret 0 { world0 [] with proc := { proc0 with cwd := "/tmp" } } ∧
    parse_command demo (bin .OP_SEQUENTIAL (leaf (cmd "cd" ["/tmp"])) (leaf (cmd "pwd" []))) []
        (world0 []) =
      .ret 0 { proc := { proc0 with cwd := "/tmp" },
               sys := { host := ["/tmp"], fork_ok := [], pipe_ok := [], next_pid := 101,
                        next_pipe := 0, trace := [[], [false], [true]] } } ∧
    parse_command demo (bin .OP_PARALLEL (leaf (cmd "cd" ["/home"])) (leaf (cmd "pwd" []))) []
        (world0 []) =
      .ret 0 { proc := proc0,
               sys := { host := ["/"], fork_ok := [], pipe_ok := [], next_pid := 103,
                        next_pipe := 0, trace := [[], [false], [true]] } } ∧
    parse_command demo (bin .OP_PIPE (leaf (cmd "cd" ["/home"])) (leaf (cmd "pwd" []))) []
        (world0 []) =
      .ret 0 { proc := proc0,
               sys := { host := ["/"], fork_ok := [], pipe_ok := [], next_pid := 103,
                        next_pipe := 1, trace := [[], [false], [true]] } } :=
  ⟨(cd_visible_in_same_process demo (cmd "cd" ["/tmp"]) (world0 []) _ _ _ "/tmp" rfl rfl rfl
      rfl).1,
   ((cd_visible_in_same_process demo (cmd "cd" ["/tmp"]) (world0 []) _ _ _ "/tmp" rfl rfl rfl
      rfl).2.2.1 none (leaf (cmd "pwd" [])) [] rfl).1,
   ((cd_visible_in_same_process demo (cmd "cd" ["/home"]) (world0 []) _ _ _ "/home" rfl rfl rfl
      rfl).2.2.2.2.1 none (leaf (cmd "pwd" [])) [] (by decide)).2.2.2 0 _ rfl,
   ((cd_visible_in_same_process demo (cmd "cd" ["/home"]) (world0 []) _ _ _ "/home" rfl rfl rfl
      rfl).2.2.2.2.2.1 none (leaf (cmd "pwd" [])) [] (by decide) (by decide)).2.2.2.2.2 0 _ rfl⟩

/-- Claim C8 as stated fails: in `cd /tmp & pwd` the first child evaluates the
`cd` leaf with status 0 and moves to `/tmp`, yet the sibling `pwd` writes `/`
and the node returns in `/`; in `(cd /tmp | true) ; pwd` the program `pwd`,
evaluated after the pipe, writes `/`. -/
theorem cd_under_parallel_invisible :
    parse_command demo (leaf (cmd "cd" ["/tmp"])) [false] (par_first_world [] (world0 [])) =
      .ret 0 { proc := { proc0 with cwd := "/tmp" },
               sys := { host := [], fork_ok := [], pipe_ok := [], next_pid := 102, next_pipe := 0,
                        trace := [[], [false]] } } ∧
    parse_command demo (bin .OP_PARALLEL (leaf (cmd "cd" ["/tmp"])) (leaf (cmd "pwd" []))) []
        (world0 []) =
      .ret 0 { proc := proc0,
               sys := { host := ["/"], fork_ok := [], pipe_ok := [], next_pid := 103,
                        next_pipe := 0, trace := [[], [false], [true]] } } ∧
    parse_command demo
        (bin .OP_SEQUENTIAL (bin .OP_PIPE (leaf (cmd "cd" ["/tmp"])) (leaf (cmd "true" [])))
          (leaf (cmd "pwd" []))) [] (world0 []) =
      .ret 0 { proc := proc0,
               sys := { host := ["/"], fork_ok := [], pipe_ok := [], next_pid := 104,
                        next_pipe := 1,
                        trace := [[], [false], [false, false], [false, true], [true]] } } := by
  refine ⟨?_, ?_, ?_⟩ <;> rfl

/-- What the code does on a Sequence node with two non-NULL children: when the
left child returns and the right child then returns, the node returns 0 in
the world the right child left, whatever the two statuses, each child having
been entered exactly once. -/
theorem sequential_node (scmd : Option simple_command_t) (l r : command_t) (pos : List Bool)
    (w : World σ) (hl : l.is_null = false) (hr : r.is_null = false) (a b : Int)
    (w1 w2 : World σ) (h1 : parse_command H l (pos ++ [false]) (w.enter pos) = .ret a w1)
    (h2 : parse_command H r (pos ++ [true]) w1 = .ret b w2) :
    parse_command H (.node .OP_SEQUENTIAL scmd l r) pos w = .ret 0 w2 ∧
    visits w2.sys (pos ++ [false]) = visits w.sys (pos ++ [false]) + 1 ∧
    visits w2.sys (pos ++ [true]) = visits w.sys (pos ++ [true]) + 1 := by
  have e1 := visits_after_child H l hl pos false (w.enter pos) _ (visits_enter_child w pos false)
  have e2 := visits_other_child H l pos false true (by decide) (w.enter pos) _
    (visits_enter_child w pos true)
  rw [h1] at e1 e2
  have e3 := visits_other_child H r pos true false (by decide) w1 _ e1
  have e4 := visits_after_child H r hr pos true w1 _ e2
  rw [h2] at e3 e4
  refine ⟨?_, e3, e4⟩
  simp [parse_command, hl, hr, h1, h2, Outcome.bind]

/-- What the code does on a Parallel node: it returns to its caller whatever
the calls of `fork` yield; no path of `run_in_parallel` ends the process. -/
theorem parallel_always_returns (scmd : Option simple_command_t) (l r : command_t)
    (pos : List Bool) (w : World σ) :
    ∃ v w1, parse_command H (.node .OP_PARALLEL scmd l r) pos w = .ret v w1 := by
  simp only [parse_command]
  split_ifs
  · exact ⟨1, _, rfl⟩
  · exact ⟨0, _, rfl⟩

/-- What the code does on a Pipe node once `pipe` has succeeded: it returns to
its caller whatever the calls of `fork` yield. -/
theorem pipe_always_returns (scmd : Option simple_command_t) (l r : command_t)
    (pos : List Bool) (w : World σ) (hp : pipe_ok w.sys) :
    ∃ v w1, parse_command H (.node .OP_PIPE scmd l r) pos w = .ret v w1 := by
  have q := (sys_pipe_ok (w.enter pos) hp).1
  simp only [parse_command, run_on_pipe, if_neg q, Outcome.bind]
  split_ifs
  · exact ⟨1, _, rfl⟩
  · exact ⟨0, _, rfl⟩

/-- What the code does on an external command when `fork` fails: the process
ends with `exit(EXIT_FAILURE)`. -/
theorem external_fork_failure_exits (s : simple_command_t) (w : World σ) (v : word_part)
    (vs : word_t) (a0 : String) (args : List String) (hv : s.verb = v :: vs)
    (h1 : v.string ≠ "cd") (h2 : ¬ (v.string = "exit" ∨ v.string = "quit"))
    (ha : H.get_argv w.proc.env s = a0 :: args) (h3 : '=' ∉ a0.data)
    (hf : w.sys.fork_ok.head? = some false) :
    ∃ k, parse_simple H s w = .exit 1 k := by
  have hneg : (sys_fork w.sys).1 < 0 := by
    unfold sys_fork
    split
    · show (-1 : Int) < 0
      decide
    · rename_i rest hk
      simp [hk] at hf
    · rename_i hk
      simp [hk] at hf
  unfold parse_simple
  simp only [hv, if_neg h1, if_neg h2, ha, if_neg h3, if_pos hneg]
  exact ⟨_, rfl⟩

/-- Claim C1 at a failing input: in `true ; false` each child is entered once,
left then right, the right child returns 1, and the Sequence node returns
0. -/
theorem sequential_discards_right_status :
    parse_command demo (leaf (cmd "false" [])) [true]
        { proc := proc0,
          sys := { host := [], fork_ok := [], pipe_ok := [], next_pid := 101, next_pipe := 0,
                   trace := [[], [false]] } } =
      .ret 1 { proc := proc0,
               sys := { host := [], fork_ok := [], pipe_ok := [], next_pid := 102, next_pipe := 0,
                        trace := [[], [false], [true]] } } ∧
    parse_command demo (bin .OP_SEQUENTIAL (leaf (cmd "true" [])) (leaf (cmd "false" []))) []
        (world0 []) =
      .ret 0 { proc := proc0,
               sys := { host := [], fork_ok := [], pipe_ok := [], next_pid := 102, next_pipe := 0,
                        trace := [[], [false], [true]] } } := by
  constructor <;> rfl

/-- Claim C4 at a failing input: in `false & true` with the first call of
`fork` failing and the second succeeding, the left child, which returns 1
when it is evaluated, is never entered, and the Parallel node returns 0;
with both calls succeeding the same node enters both children and returns
1. -/
theorem parallel_fork_failure_skips_child :
    ¬ forks_ok 2 (world0 [false, true]).sys ∧
    parse_command demo (leaf (cmd "false" [])) [false] (world0 []) =
      .ret 1 { proc := proc0,
               sys := { host := [], fork_ok := [], pipe_ok := [], next_pid := 101, next_pipe := 0,
                        trace := [[false]] } } ∧
    parse_command demo (bin .OP_PARALLEL (leaf (cmd "false" [])) (leaf (cmd "true" []))) []
        (world0 [false, true]) =
      .ret 0 { proc := proc0,
               sys := { host := [], fork_ok := [], pipe_ok := [], next_pid := 102, next_pipe := 0,
                        trace := [[], [true]] } } ∧
    parse_command demo (bin .OP_PARALLEL (leaf (cmd "false" [])) (leaf (cmd "true" []))) []
        (world0 []) =
      .ret 1 { proc := proc0,
               sys := { host := [], fork_ok := [], pipe_ok := [], next_pid := 104, next_pipe := 0,
                        trace := [[], [false], [true]] } } := by
  refine ⟨by decide, ?_, ?_, ?_⟩ <;> rfl

/-- Claim C6 at a failing input: with both append flags set (`io_flags = 3`)
the child of `fds >> o 2>> e` sets up no redirection and the program finds
descriptors 1 and 2 as inherited; with `io_flags = 1` it finds descriptor 1
appending to `o`, with `io_flags = 2` descriptor 2 appending to `e`. -/
theorem both_append_flags_redirect_nothing :
    child_redirect demo { cmd "fds" [] with out := lit "o", err := lit "e", io_flags := 3 }
        (world0 []) = world0 [] ∧
    parse_simple demo { cmd "fds" [] with out := lit "o", err := lit "e", io_flags := 3 }
        (world0 []) =
      .ret 0 { proc := proc0,
               sys := { host := ["tty", "tty"], fork_ok := [], pipe_ok := [], next_pid := 101,
                        next_pipe := 0, trace := [] } } ∧
    parse_simple demo { cmd "fds" [] with out := lit "o", err := lit "e", io_flags := 1 }
        (world0 []) =
      .ret 0 { proc := proc0,
               sys := { host := [">>o", "tty"], fork_ok := [], pipe_ok := [], next_pid := 101,
                        next_pipe := 0, trace := [] } } ∧
    parse_simple demo { cmd "fds" [] with out := lit "o", err := lit "e", io_flags := 2 }
        (world0 []) =
      .ret 0 { proc := proc0,
               sys := { host := ["tty", ">>e"], fork_ok := [], pipe_ok := [], next_pid := 101,
                        next_pipe := 0, trace := [] } } := by
  refine ⟨?_, ?_, ?_, ?_⟩ <;> rfl

/-- Claim C9 at a failing input: when `fork` fails, an external-command leaf
ends the shell with `exit(1)`, but a Parallel node and a Pipe node whose two
calls of `fork` fail return status 0 to their caller. -/
theorem fork_failure_unchecked_in_parallel_and_pipe :
    parse_command demo (leaf (cmd "true" [])) [] (world0 [false]) =
      .exit 1 { host := ["fork"], fork_ok := [], pipe_ok := [], next_pid := 100, next_pipe := 0,
                trace := [[]] } ∧
    parse_command demo (bin .OP_PARALLEL (leaf (cmd "true" [])) (leaf (cmd "false" []))) []
        (world0 [false, false]) =
      .ret 0 { proc := proc0,
               sys := { host := [], fork_ok := [], pipe_ok := [], next_pid := 100, next_pipe := 0,
                        trace := [[]] } } ∧
    parse_command demo (bin .OP_PIPE (leaf (cmd "true" [])) (leaf (cmd "false" []))) []
        (world0 [false, false]) =
      .ret 0 { proc := proc0,
               sys := { host := [], fork_ok := [], pipe_ok := [], next_pid := 100, next_pipe := 1,
                        trace := [[]] } } := by
  refine ⟨?_, ?_, ?_⟩ <;> rfl

/-- Claim C10 at a failing input: after `cd /tmp > o` descriptor 3, opened on
`o`, is still open in the shell process. -/
theorem cd_redirection_leaks_descriptor :
    parse_simple demo { cmd "cd" ["/tmp"] with out := lit "o" } (world0 []) =
      .ret 0 { world0 [] with
        proc := { cwd := "/tmp", env := [],
                  fds := (3, .file "o" .O_TRUNC) :: proc0.fds } } ∧
    open_fds (world0 []).proc = [0, 1, 2] ∧
    open_fds { proc0 with cwd := "/tmp", fds := (3, .file "o" .O_TRUNC) :: proc0.fds }
      = [3, 0, 1, 2] := by
  refine ⟨?_, ?_, ?_⟩ <;> rfl

end Claims

end Shell
